import Mathlib

/-!
Shallow embedding of the KeepKey streamed transaction-signing engine
(`signing_init` / `signing_txack` / `signing_abort` and the private helper
`check_valid_output_address`), transliterated from the C source.

Modelling conventions:
* machine integers are `Nat` with explicit reduction `% 2^32` / `% 2^64`
  exactly where the C arithmetic can wrap (`u64add`, `u64sub`, `u64mul`,
  `u32pred` for the `idx < count - 1` unsigned comparisons);
* the three streaming SHA-256 contexts are modelled as the exact ordered
  list of byte regions fed to `sha256_Update` (a `List Chunk`);
  `sha256_Final` is the identity on that list, i.e. SHA-256 is idealised as
  a collision-free function of its input stream;
* the transaction codec (`tx_init` / `tx_serialize_input_hash` /
  `tx_serialize_output_hash` / emit-mode serialization), which lives outside
  this repository, is modelled from the spec: each call appends the record
  to the `TxStruct` cursor and fails on bounds mismatches;
* the external crypto, script-compilation and user-confirmation
  collaborators (out of scope per the spec) are an explicit `Env` of
  functions consulted by the engine;
* `tx_hash_final` (the double SHA-256 of the serialized stream) is the
  environment function `tx_hash : TxStruct → List Nat`, compared against
  the 32-byte `prev_hash` field byte-for-byte as in the C `memcmp`.
-/

set_option autoImplicit false
set_option maxRecDepth 16384

namespace KeepKey

/-- Modulus of a 64-bit machine word. -/
def U64 : Nat := 2 ^ 64

/-- Modulus of a 32-bit machine word. -/
def U32 : Nat := 2 ^ 32

/-- 64-bit unsigned addition with wraparound, as in the C `+=` on `uint64_t`. -/
def u64add (a b : Nat) : Nat := (a + b) % U64

/-- 64-bit unsigned subtraction with wraparound (`a - b` on `uint64_t`). -/
def u64sub (a b : Nat) : Nat := (a + U64 - b % U64) % U64

/-- 64-bit unsigned multiplication with wraparound. -/
def u64mul (a b : Nat) : Nat := a * b % U64

/-- The value of `n - 1` computed on `uint32_t`: for `n = 0` this wraps to
`2^32 - 1`, which is how the C `idx < count - 1` comparisons behave. -/
def u32pred (n : Nat) : Nat := (n + (U32 - 1)) % U32

/-- InputScriptType from the protocol (the engine only distinguishes
SPENDMULTISIG from the SPENDADDRESS default). -/
inductive InputScriptType
  | SPENDADDRESS
  | SPENDMULTISIG
deriving DecidableEq

/-- OutputScriptType from the protocol. -/
inductive OutputScriptType
  | PAYTOADDRESS
  | PAYTOSCRIPTHASH
  | PAYTOMULTISIG
deriving DecidableEq

/-- OutputAddressType from the protocol. -/
inductive OutputAddressType
  | SPEND
  | TRANSFER
  | CHANGE
deriving DecidableEq

/-- Multisig redeem-script description carried by inputs and outputs.
Its fingerprint is computed by the external crypto library (`Env`). -/
structure MultisigType where
  m : Nat
  pubkeys : List (List Nat)
  signatures : List (List Nat)
deriving DecidableEq

/-- TxInputType record as received from the host (the fields the engine
reads or writes; `prev_hash` is the 32-byte array content). -/
structure TxInputType where
  prev_hash : List Nat
  prev_index : Nat
  script_type : InputScriptType
  sequence : Nat
  has_multisig : Bool
  multisig : MultisigType
  address_n : List Nat
  script_sig : List Nat
deriving DecidableEq

/-- TxOutputType record as received from the host. -/
structure TxOutputType where
  amount : Nat
  script_type : OutputScriptType
  has_address : Bool
  address : String
  address_n : List Nat
  has_multisig : Bool
  multisig : MultisigType
  has_address_type : Bool
  address_type : OutputAddressType
deriving DecidableEq

/-- TxOutputBinType: a compiled (binary) output. -/
structure TxOutputBinType where
  amount : Nat
  script_pubkey : List Nat
deriving DecidableEq

/-- The TxAck payload (`TransactionType`): a nanopb struct holding all of
the possible fields; the engine reads whichever its stage expects. -/
structure TransactionType where
  inputs : TxInputType
  bin_outputs : TxOutputBinType
  outputs : TxOutputType
  inputs_cnt : Nat
  outputs_cnt : Nat
  version : Nat
  lock_time : Nat
deriving DecidableEq

/-- A region of bytes fed to the checksum SHA-256 context `tc`:
a 4-byte little-endian word, a raw `TxInputType` struct, or a raw
`TxOutputBinType` struct, exactly as in the C `sha256_Update` calls. -/
inductive Chunk
  | u32 (n : Nat)
  | inp (i : TxInputType)
  | outb (o : TxOutputBinType)
deriving DecidableEq

/-- HD node: the key material the engine handles. -/
structure HDNode where
  private_key : List Nat
  public_key : List Nat
deriving DecidableEq

/-- Coin parameters used by the engine. -/
structure CoinType where
  address_type : Nat
  maxfee_kb : Nat
deriving DecidableEq

/-- Modelled from the spec: the transaction codec's `TxStruct`
(transaction.c is not part of this repository). It holds the declared
shape and the records serialized so far; `is_signing` is the flag passed
to `tx_init`. -/
structure TxStruct where
  inputs_len : Nat
  outputs_len : Nat
  version : Nat
  lock_time : Nat
  is_signing : Bool
  fed_ins : List TxInputType
  fed_outs : List TxOutputBinType
deriving DecidableEq

/-- Modelled from the spec: `tx_init` resets the codec cursor. -/
def tx_init (i o v l : Nat) (s : Bool) : TxStruct :=
  ⟨i, o, v, l, s, [], []⟩

/-- Modelled from the spec: `tx_serialize_input_hash` appends one input to
the stream, failing on a bounds mismatch (more inputs than declared). -/
def tx_serialize_input_hash (t : TxStruct) (i : TxInputType) : Option TxStruct :=
  if t.fed_ins.length < t.inputs_len then
    some { t with fed_ins := t.fed_ins ++ [i] }
  else none

/-- Modelled from the spec: `tx_serialize_output_hash` appends one output,
failing if the inputs are not all in yet or the outputs overrun. -/
def tx_serialize_output_hash (t : TxStruct) (o : TxOutputBinType) : Option TxStruct :=
  if t.inputs_len ≤ t.fed_ins.length ∧ t.fed_outs.length < t.outputs_len then
    some { t with fed_outs := t.fed_outs ++ [o] }
  else none

/-- Opaque serialized bytes produced by the emit-mode codec calls. -/
inductive SerBytes
  | empty
  | ofInput (i : TxInputType)
  | ofOutput (o : TxOutputBinType)
deriving DecidableEq

/-- Modelled from the spec: emit-mode `tx_serialize_input`; the C caller
ignores a zero-length (out of bounds) result. -/
def tx_serialize_input_emit (t : TxStruct) (i : TxInputType) : TxStruct × SerBytes :=
  if t.fed_ins.length < t.inputs_len then
    ({ t with fed_ins := t.fed_ins ++ [i] }, SerBytes.ofInput i)
  else (t, SerBytes.empty)

/-- Modelled from the spec: emit-mode `tx_serialize_output`. -/
def tx_serialize_output_emit (t : TxStruct) (o : TxOutputBinType) : TxStruct × SerBytes :=
  if t.inputs_len ≤ t.fed_ins.length ∧ t.fed_outs.length < t.outputs_len then
    ({ t with fed_outs := t.fed_outs ++ [o] }, SerBytes.ofOutput o)
  else (t, SerBytes.empty)

/-- FailureType kinds the engine emits. -/
inductive FailureType
  | UnexpectedMessage
  | Other
  | NotEnoughFunds
  | ActionCancelled
deriving DecidableEq

/-- RequestType of an outbound TxRequest. -/
inductive RequestType
  | TXINPUT
  | TXOUTPUT
  | TXMETA
  | TXFINISHED
deriving DecidableEq

/-- The `serialized` part of an outbound TxRequest. -/
structure SerializedPart where
  signature_index : Option Nat
  signature : Option (List Nat)
  serialized_tx : Option SerBytes
deriving DecidableEq

/-- Observable actions of the engine: outbound messages, failure messages,
returning the UI home, and the two direct confirmation prompts (the
per-output prompt lives inside the external `compile_output`). -/
inductive Event
  | txRequest (rt : RequestType) (request_index : Option Nat)
      (tx_hash : Option (List Nat)) (ser : Option SerializedPart)
  | failure (k : FailureType) (msg : String)
  | goHome
  | feePrompt (fee : Nat)
  | finalPrompt (total : Nat) (fee : Nat)
deriving DecidableEq

/-- Whether an event is a failure message. -/
def Event.isFailure : Event → Bool
  | Event.failure _ _ => true
  | _ => false

/-- The external collaborators (crypto primitives, script compiler,
codec hash finalisation, confirmation UI), fixed for a session.
`compile_output` takes the output record and the `needs_confirm` flag and
returns the C `int` result together with the compiled binary output;
`tx_hash` is `tx_hash_final`, the double SHA-256 over the serialized
stream. -/
structure Env where
  multisig_fingerprint : MultisigType → Option (List Nat)
  compile_output : TxOutputType → Bool → Int × TxOutputBinType
  hdnode_ckd : HDNode → List Nat → Option HDNode
  pubkeyhash : List Nat → List Nat
  compile_script_sig : Nat → List Nat → List Nat
  compile_script_multisig : MultisigType → List Nat
  tx_hash : TxStruct → List Nat
  sign_digest : List Nat → List Nat → List Nat
  sig_to_der : List Nat → List Nat
  pubkey_index : MultisigType → List Nat → Int
  serialize_script_sig : List Nat → List Nat → List Nat
  serialize_script_multisig : MultisigType → List Nat
  confirm_fee : Nat → Bool
  confirm_transaction : Nat → Nat → Bool

/-- The signing stages (`signing_stage` enum). -/
inductive Stage
  | r1Input
  | r2PrevMeta
  | r2PrevInput
  | r2PrevOutput
  | r3Output
  | r4Input
  | r4Output
  | r5Output
deriving DecidableEq

/-- The hardcoded transaction version. -/
def version_const : Nat := 1

/-- The hardcoded lock time. -/
def lock_time_const : Nat := 0

/-- The module-level state of the signing engine (the C static variables
that persist across `signing_txack` calls; the scratch buffers `resp`,
`bin_output`, `hash` and `sig` are rebuilt inside every call and are
therefore kept local to the step function). `t_out` models the C `to`. -/
structure SState where
  inputs_count : Nat
  outputs_count : Nat
  coin : CoinType
  root : HDNode
  node : HDNode
  signing : Bool
  stage : Stage
  idx1 : Nat
  idx2 : Nat
  to_spend : Nat
  spending : Nat
  change_spend : Nat
  input : TxInputType
  tc : List Chunk
  tp : TxStruct
  ti : TxStruct
  t_out : TxStruct
  hash_check : List Chunk
  privkey : List Nat
  pubkey : List Nat
  multisig_fp_set : Bool
  multisig_fp_mismatch : Bool
  multisig_fp : List Nat
deriving DecidableEq

/-- A zeroed `TxInputType` (the `memset` in `signing_init`). -/
def zeroInput : TxInputType :=
  ⟨[], 0, InputScriptType.SPENDADDRESS, 0, false, ⟨0, [], []⟩, [], []⟩

/-- The four-word seed fed to the checksum context `tc` by `signing_init`
and again at the start of every Phase-2 walk. -/
def seedChunks (ic oc : Nat) : List Chunk :=
  [Chunk.u32 ic, Chunk.u32 oc, Chunk.u32 version_const, Chunk.u32 lock_time_const]

/-- `signing_abort`: return the UI home and deactivate, when active. -/
def signing_abort (s : SState) : SState × List Event :=
  if s.signing then ({ s with signing := false }, [Event.goHome]) else (s, [])

/-- `fsm_sendFailure` followed by `signing_abort`, the common failure exit. -/
def failAbort (s : SState) (k : FailureType) (msg : String) : SState × List Event :=
  let r := signing_abort s
  (r.1, Event.failure k msg :: r.2)

/-- `signing_init`: initialise the session state. Mirrors the C exactly:
it resets the totals, the held input, the fingerprint flags, the `to`
codec and the checksum seed, sets `signing`, and emits the first
`TxRequest(TXINPUT, idx 0)`; it touches nothing else (in particular it
performs no check that a session is already active, and does not reset
`idx2`, `tp`, `ti`, `hash_check`, `privkey` or `pubkey`). -/
def signing_init (ic oc : Nat) (c : CoinType) (r : HDNode) (s : SState) :
    SState × List Event :=
  let s' : SState :=
    { s with
      inputs_count := ic, outputs_count := oc, coin := c, root := r,
      idx1 := 0, to_spend := 0, spending := 0, change_spend := 0,
      input := zeroInput,
      signing := true,
      multisig_fp_set := false, multisig_fp_mismatch := false,
      t_out := tx_init ic oc version_const lock_time_const false,
      tc := seedChunks ic oc,
      stage := Stage.r1Input }
  (s', [Event.txRequest RequestType.TXINPUT (some 0) none none])

/-- `check_valid_output_address`: sanity of an output carrying an explicit
`address_type` (transliterated switch). -/
def check_valid_output_address (o : TxOutputType) : Bool :=
  match o.address_type with
  | OutputAddressType.SPEND => o.has_address
  | OutputAddressType.TRANSFER => decide (0 < o.address_n.length)
  | OutputAddressType.CHANGE => decide (0 < o.address_n.length)

/-- Tail of STAGE_REQUEST_1_INPUT after the fingerprint bookkeeping:
hash the received input into `tc`, hold a copy, request the prev-tx
metadata. -/
def stage1tail (s : SState) (tx : TransactionType) : SState × List Event :=
  let s' :=
    { s with
      tc := s.tc ++ [Chunk.inp tx.inputs],
      input := tx.inputs,
      stage := Stage.r2PrevMeta }
  (s', [Event.txRequest RequestType.TXMETA none (some tx.inputs.prev_hash) none])

/-- The multisig-fingerprint bookkeeping performed by
STAGE_REQUEST_1_INPUT on the triple `(multisig_fp_set,
multisig_fp_mismatch, multisig_fp)`; `none` is the fingerprint-computation
failure. Transliterated from the C branch structure. -/
def fpStep (env : Env) (fp_set fp_mis : Bool) (fp : List Nat) (i : TxInputType) :
    Option (Bool × Bool × List Nat) :=
  if i.script_type = InputScriptType.SPENDMULTISIG then
    if i.has_multisig ∧ ¬fp_mis then
      if fp_set then
        match env.multisig_fingerprint i.multisig with
        | none => none
        | some h =>
          if h ≠ fp then some (fp_set, true, fp) else some (fp_set, fp_mis, fp)
      else
        match env.multisig_fingerprint i.multisig with
        | none => none
        | some h => some (true, fp_mis, h)
    else some (fp_set, fp_mis, fp)
  else some (fp_set, true, fp)

/-- STAGE_REQUEST_1_INPUT: multisig-fingerprint bookkeeping, then hold the
input and move to the prev-tx walk. -/
def stage1 (env : Env) (s : SState) (tx : TransactionType) : SState × List Event :=
  match fpStep env s.multisig_fp_set s.multisig_fp_mismatch s.multisig_fp tx.inputs with
  | none => failAbort s FailureType.Other "Error computing multisig fingeprint"
  | some f =>
    stage1tail
      { s with
        multisig_fp_set := f.1, multisig_fp_mismatch := f.2.1,
        multisig_fp := f.2.2 } tx

/-- STAGE_REQUEST_2_PREV_META: initialise the prev-tx codec from the
received metadata and request prev input 0. -/
def stage2meta (s : SState) (tx : TransactionType) : SState × List Event :=
  let s' :=
    { s with
      tp := tx_init tx.inputs_cnt tx.outputs_cnt tx.version tx.lock_time false,
      idx2 := 0,
      stage := Stage.r2PrevInput }
  (s', [Event.txRequest RequestType.TXINPUT (some 0) (some s.input.prev_hash) none])

/-- STAGE_REQUEST_2_PREV_INPUT: serialize one prev-tx input into the
prev-tx hash, then request the next prev input or the first prev output. -/
def stage2in (s : SState) (tx : TransactionType) : SState × List Event :=
  match tx_serialize_input_hash s.tp tx.inputs with
  | none => failAbort s FailureType.Other "Failed to serialize input"
  | some tp' =>
    let s1 := { s with tp := tp' }
    if s1.idx2 < u32pred tp'.inputs_len then
      let s2 := { s1 with idx2 := s1.idx2 + 1 }
      (s2, [Event.txRequest RequestType.TXINPUT (some s2.idx2) (some s2.input.prev_hash) none])
    else
      let s2 := { s1 with idx2 := 0, stage := Stage.r2PrevOutput }
      (s2, [Event.txRequest RequestType.TXOUTPUT (some 0) (some s2.input.prev_hash) none])

/-- STAGE_REQUEST_2_PREV_OUTPUT: serialize one prev-tx output, accumulate
`to_spend` at the referenced index, and on the last output finalise the
prev-tx hash and compare it with the held input's `prev_hash`. -/
def stage2out (env : Env) (s : SState) (tx : TransactionType) : SState × List Event :=
  match tx_serialize_output_hash s.tp tx.bin_outputs with
  | none => failAbort s FailureType.Other "Failed to serialize output"
  | some tp' =>
    let s1 := { s with tp := tp' }
    let s2 :=
      if s1.idx2 = s1.input.prev_index then
        { s1 with to_spend := u64add s1.to_spend tx.bin_outputs.amount }
      else s1
    if s2.idx2 < u32pred tp'.outputs_len then
      let s3 := { s2 with idx2 := s2.idx2 + 1 }
      (s3, [Event.txRequest RequestType.TXOUTPUT (some s3.idx2) (some s3.input.prev_hash) none])
    else
      if env.tx_hash tp' ≠ s2.input.prev_hash then
        failAbort s2 FailureType.Other "Encountered invalid prevhash"
      else if s2.idx1 < u32pred s2.inputs_count then
        let s3 := { s2 with idx1 := s2.idx1 + 1, stage := Stage.r1Input }
        (s3, [Event.txRequest RequestType.TXINPUT (some s3.idx1) none none])
      else
        let s3 := { s2 with idx1 := 0, stage := Stage.r3Output }
        (s3, [Event.txRequest RequestType.TXOUTPUT (some 0) none none])

/-- The size estimator `transactionEstimateSizeKb`.
Modelled from the spec: transaction.c is not part of this repository; the
spec defines it as `ceil((148*inputs_count + 34*outputs_count + 10) / 1000)`. -/
def transactionEstimateSizeKb (ic oc : Nat) : Nat :=
  (148 * ic + 34 * oc + 10 + 999) / 1000

/-- Tail of STAGE_REQUEST_3_OUTPUT once `is_change` is decided: change
bookkeeping, totals, compile, checksum update, and on the last output the
fee checks, confirmations and Phase-2 entry. Mirrors the C order exactly,
including the two paths (`NotEnoughFunds`, fee-threshold cancel) that call
`go_home()` without `signing_abort()`. -/
def stage3cont (env : Env) (s : SState) (out : TxOutputType) (is_change : Bool) :
    SState × List Event :=
  let chk : Option SState :=
    if is_change then
      if s.change_spend = 0 then some { s with change_spend := out.amount }
      else none
    else some s
  match chk with
  | none => failAbort s FailureType.Other "Only one change output allowed"
  | some s1 =>
    let s2 := { s1 with spending := u64add s1.spending out.amount }
    let co := env.compile_output out (!is_change)
    if co.1 < 0 then
      failAbort s2 FailureType.Other "Signing cancelled by user"
    else if co.1 = 0 then
      failAbort s2 FailureType.Other "Failed to compile output"
    else
      let s3 := { s2 with tc := s2.tc ++ [Chunk.outb co.2] }
      if s3.idx1 < u32pred s3.outputs_count then
        let s4 := { s3 with idx1 := s3.idx1 + 1 }
        (s4, [Event.txRequest RequestType.TXOUTPUT (some s4.idx1) none none])
      else
        let s4 := { s3 with hash_check := s3.tc }
        if s4.to_spend < s4.spending then
          (s4, [Event.failure FailureType.NotEnoughFunds "Not enough funds", Event.goHome])
        else
          let fee := u64sub s4.to_spend s4.spending
          let est := transactionEstimateSizeKb s4.inputs_count s4.outputs_count
          let total := u64sub s4.to_spend s4.change_spend
          if u64mul est s4.coin.maxfee_kb < fee then
            if ¬env.confirm_fee fee then
              (s4, [Event.feePrompt fee,
                    Event.failure FailureType.ActionCancelled "Fee over threshold. Signing cancelled.",
                    Event.goHome])
            else
              if ¬env.confirm_transaction total fee then
                let r := failAbort s4 FailureType.ActionCancelled "Signing cancelled by user"
                (r.1, Event.feePrompt fee :: Event.finalPrompt total fee :: r.2)
              else
                let s5 := { s4 with idx1 := 0, idx2 := 0, stage := Stage.r4Input }
                (s5, [Event.feePrompt fee, Event.finalPrompt total fee,
                      Event.txRequest RequestType.TXINPUT (some 0) none none])
          else
            if ¬env.confirm_transaction total fee then
              let r := failAbort s4 FailureType.ActionCancelled "Signing cancelled by user"
              (r.1, Event.finalPrompt total fee :: r.2)
            else
              let s5 := { s4 with idx1 := 0, idx2 := 0, stage := Stage.r4Input }
              (s5, [Event.finalPrompt total fee,
                    Event.txRequest RequestType.TXINPUT (some 0) none none])

/-- Result of the change-vs-spend classifier head of
STAGE_REQUEST_3_OUTPUT: fingerprint-computation failure, invalid explicit
address type, or a change/spend decision. -/
inductive ClassRes
  | fpFail
  | invalidAddr
  | ok (is_change : Bool)
deriving DecidableEq

/-- The change-vs-spend classifier of STAGE_REQUEST_3_OUTPUT,
transliterated: the multisig-fingerprint branch (entered whenever the
output is PAYTOMULTISIG with a multisig record while fingerprint tracking
is active), the explicit address-type branch, and the legacy branch. -/
def classifyOutput (env : Env) (fp_set fp_mis : Bool) (fp : List Nat)
    (o : TxOutputType) : ClassRes :=
  if o.script_type = OutputScriptType.PAYTOMULTISIG ∧ o.has_multisig ∧
      fp_set ∧ ¬fp_mis then
    match env.multisig_fingerprint o.multisig with
    | none => ClassRes.fpFail
    | some h => ClassRes.ok (h = fp)
  else
    if o.has_address_type then
      if check_valid_output_address o = false then ClassRes.invalidAddr
      else
        ClassRes.ok
          (o.script_type = OutputScriptType.PAYTOADDRESS ∧
            0 < o.address_n.length ∧
            o.address_type = OutputAddressType.CHANGE)
    else
      ClassRes.ok
        (o.script_type = OutputScriptType.PAYTOADDRESS ∧ 0 < o.address_n.length)

/-- STAGE_REQUEST_3_OUTPUT: classify the received output as change or
spend, then continue with `stage3cont`. -/
def stage3 (env : Env) (s : SState) (tx : TransactionType) : SState × List Event :=
  match classifyOutput env s.multisig_fp_set s.multisig_fp_mismatch s.multisig_fp
      tx.outputs with
  | ClassRes.fpFail =>
    failAbort s FailureType.Other "Error computing multisig fingeprint"
  | ClassRes.invalidAddr =>
    failAbort s FailureType.Other "Invalid output address type"
  | ClassRes.ok c => stage3cont env s tx.outputs c

/-- Tail of STAGE_REQUEST_4_INPUT: serialize the (possibly script-filled)
input into the signing stream and advance the inner walk. -/
def stage4inTail (s : SState) (txi : TxInputType) : SState × List Event :=
  match tx_serialize_input_hash s.ti txi with
  | none => failAbort s FailureType.Other "Failed to serialize input"
  | some ti' =>
    let s1 := { s with ti := ti' }
    if s1.idx2 < u32pred s1.inputs_count then
      let s2 := { s1 with idx2 := s1.idx2 + 1 }
      (s2, [Event.txRequest RequestType.TXINPUT (some s2.idx2) none none])
    else
      let s2 := { s1 with idx2 := 0, stage := Stage.r4Output }
      (s2, [Event.txRequest RequestType.TXOUTPUT (some 0) none none])

/-- Target-input part of STAGE_REQUEST_4_INPUT after key derivation
succeeded: compile the scriptSig placeholder, remember the key pair. -/
def stage4inTarget (s : SState) (tx : TransactionType) (nd : HDNode) (ss : List Nat) :
    SState × List Event :=
  if ss.length = 0 then
    failAbort s FailureType.Other "Failed to compile input"
  else
    let s1 := { s with privkey := nd.private_key, pubkey := nd.public_key }
    stage4inTail s1 { tx.inputs with script_sig := ss }

/-- STAGE_REQUEST_4_INPUT: on the first input of a walk reset the signing
codec, the checksum context and the key buffers; hash the received input
into the checksum; for the target input derive the key and fill the
scriptSig placeholder; serialize into the signing stream. -/
def stage4in (env : Env) (s : SState) (tx : TransactionType) : SState × List Event :=
  let s0 :=
    if s.idx2 = 0 then
      { s with
        ti := tx_init s.inputs_count s.outputs_count version_const lock_time_const true,
        tc := seedChunks s.inputs_count s.outputs_count,
        privkey := List.replicate 32 0,
        pubkey := List.replicate 33 0 }
    else s
  let s1 := { s0 with tc := s0.tc ++ [Chunk.inp tx.inputs] }
  if s1.idx2 = s1.idx1 then
    let s2 := { s1 with input := tx.inputs, node := s1.root }
    match env.hdnode_ckd s2.root tx.inputs.address_n with
    | none => failAbort s2 FailureType.Other "Failed to derive private key"
    | some nd =>
      let s3 := { s2 with node := nd }
      if tx.inputs.script_type = InputScriptType.SPENDMULTISIG then
        if ¬tx.inputs.has_multisig then
          failAbort s3 FailureType.Other "Multisig info not provided"
        else
          stage4inTarget s3 tx nd (env.compile_script_multisig tx.inputs.multisig)
      else
        stage4inTarget s3 tx nd
          (env.compile_script_sig s3.coin.address_type (env.pubkeyhash nd.public_key))
  else
    stage4inTail s1 { tx.inputs with script_sig := [] }

/-- Final part of STAGE_REQUEST_4_OUTPUT once the held input's scriptSig
has been rebuilt with the signature: emit the serialized signed input and
advance to the next signing walk or to Phase 3. -/
def stage4outEmit (s : SState) (inp' : TxInputType) (der : List Nat) :
    SState × List Event :=
  let r := tx_serialize_input_emit s.t_out inp'
  let s1 := { s with input := inp', t_out := r.1 }
  let ser : SerializedPart := ⟨some s1.idx1, some der, some r.2⟩
  if s1.idx1 < u32pred s1.inputs_count then
    let s2 := { s1 with idx1 := s1.idx1 + 1, idx2 := 0, stage := Stage.r4Input }
    (s2, [Event.txRequest RequestType.TXINPUT (some 0) none (some ser)])
  else
    let s2 := { s1 with idx1 := 0, stage := Stage.r5Output }
    (s2, [Event.txRequest RequestType.TXOUTPUT (some 0) none (some ser)])

/-- STAGE_REQUEST_4_OUTPUT: compile the output (no display), hash it into
the checksum and the signing stream; on the last output compare the
rebuilt checksum against `hash_check`, sign the walk's digest, rebuild
the held input's scriptSig and emit it. -/
def stage4out (env : Env) (s : SState) (tx : TransactionType) : SState × List Event :=
  let co := env.compile_output tx.outputs false
  if co.1 < 0 then
    failAbort s FailureType.Other "Signing cancelled by user"
  else if co.1 = 0 then
    failAbort s FailureType.Other "Failed to compile output"
  else
    let s1 := { s with tc := s.tc ++ [Chunk.outb co.2] }
    match tx_serialize_output_hash s1.ti co.2 with
    | none => failAbort s1 FailureType.Other "Failed to serialize output"
    | some ti' =>
      let s2 := { s1 with ti := ti' }
      if s2.idx2 < u32pred s2.outputs_count then
        let s3 := { s2 with idx2 := s2.idx2 + 1 }
        (s3, [Event.txRequest RequestType.TXOUTPUT (some s3.idx2) none none])
      else
        if s2.tc ≠ s2.hash_check then
          failAbort s2 FailureType.Other "Transaction has changed during signing"
        else
          let digest := env.tx_hash ti'
          let der := env.sig_to_der (env.sign_digest s2.privkey digest)
          if s2.input.script_type = InputScriptType.SPENDMULTISIG then
            if ¬s2.input.has_multisig then
              failAbort s2 FailureType.Other "Multisig info not provided"
            else
              let pi := env.pubkey_index s2.input.multisig s2.pubkey
              if pi < 0 then
                failAbort s2 FailureType.Other "Pubkey not found in multisig script"
              else
                let ms' :=
                  { s2.input.multisig with
                    signatures := s2.input.multisig.signatures.set pi.toNat der }
                let ss := env.serialize_script_multisig ms'
                if ss.length = 0 then
                  failAbort s2 FailureType.Other "Failed to serialize multisig script"
                else
                  stage4outEmit s2 { s2.input with multisig := ms', script_sig := ss } der
          else
            stage4outEmit s2
              { s2.input with script_sig := env.serialize_script_sig der s2.pubkey } der

/-- STAGE_REQUEST_5_OUTPUT: recompile the output, emit its serialized
bytes; after the last one emit TXFINISHED and end the session. -/
def stage5 (env : Env) (s : SState) (tx : TransactionType) : SState × List Event :=
  let co := env.compile_output tx.outputs false
  if co.1 ≤ 0 then
    failAbort s FailureType.Other "Failed to compile output"
  else
    let r := tx_serialize_output_emit s.t_out co.2
    let s1 := { s with t_out := r.1 }
    let ser : SerializedPart := ⟨none, none, some r.2⟩
    if s1.idx1 < u32pred s1.outputs_count then
      let s2 := { s1 with idx1 := s1.idx1 + 1 }
      (s2, [Event.txRequest RequestType.TXOUTPUT (some s2.idx1) none (some ser)])
    else
      let r2 := signing_abort s1
      (r2.1, Event.txRequest RequestType.TXFINISHED none none (some ser) :: r2.2)

/-- `signing_txack`: dispatch one received TxAck according to the current
stage; when no session is active answer `UnexpectedMessage` and go home. -/
def signing_txack (env : Env) (s : SState) (tx : TransactionType) : SState × List Event :=
  if ¬s.signing then
    (s, [Event.failure FailureType.UnexpectedMessage "Not in Signing mode", Event.goHome])
  else
    match s.stage with
    | Stage.r1Input => stage1 env s tx
    | Stage.r2PrevMeta => stage2meta s tx
    | Stage.r2PrevInput => stage2in s tx
    | Stage.r2PrevOutput => stage2out env s tx
    | Stage.r3Output => stage3 env s tx
    | Stage.r4Input => stage4in env s tx
    | Stage.r4Output => stage4out env s tx
    | Stage.r5Output => stage5 env s tx

/-- Drive the engine over a list of TxAck messages, concatenating the
emitted events. -/
def run (env : Env) : SState → List TransactionType → SState × List Event
  | s, [] => (s, [])
  | s, a :: rest =>
    let r1 := signing_txack env s a
    let r2 := run env r1.1 rest
    (r2.1, r1.2 ++ r2.2)

/-! ### Concrete fixtures for witnesses and counterexamples -/

/-- A zeroed multisig record. -/
def zeroMultisig : MultisigType := ⟨0, [], []⟩

/-- A zeroed `TxOutputType`. -/
def zeroOutput : TxOutputType :=
  ⟨0, OutputScriptType.PAYTOADDRESS, false, "", [], false, zeroMultisig, false,
    OutputAddressType.SPEND⟩

/-- A base TxAck payload with every field zeroed. -/
def baseTT : TransactionType :=
  ⟨zeroInput, ⟨0, []⟩, zeroOutput, 0, 0, 0, 0⟩

/-- A TxAck carrying one input record. -/
def ackIn (i : TxInputType) : TransactionType := { baseTT with inputs := i }

/-- A TxAck carrying one output record. -/
def ackOut (o : TxOutputType) : TransactionType := { baseTT with outputs := o }

/-- A TxAck carrying one prev-tx binary output. -/
def ackBin (b : TxOutputBinType) : TransactionType := { baseTT with bin_outputs := b }

/-- A TxAck carrying prev-tx metadata. -/
def ackMeta (ic oc v lt : Nat) : TransactionType :=
  { baseTT with inputs_cnt := ic, outputs_cnt := oc, version := v, lock_time := lt }

/-- A previous transaction as the host streams it: its declared metadata
and its input and output records. -/
structure PrevTx where
  version : Nat
  lock_time : Nat
  pins : List TxInputType
  pouts : List TxOutputBinType
deriving DecidableEq

/-- The codec state after the whole previous transaction has been
serialized (what `tx_hash_final` is applied to). -/
def prevStruct (p : PrevTx) : TxStruct :=
  ⟨p.pins.length, p.pouts.length, p.version, p.lock_time, false, p.pins, p.pouts⟩

/-- The TxAck sequence delivering one previous transaction (metadata,
then each input, then each output), as an honest host sends it. -/
def prevTxAcks (p : PrevTx) : List TransactionType :=
  ackMeta p.pins.length p.pouts.length p.version p.lock_time ::
    (p.pins.map ackIn ++ p.pouts.map ackBin)

/-- The TxAck sequence for one Phase-1 input: the input record followed by
its previous transaction. -/
def inputAcks (i : TxInputType) (p : PrevTx) : List TransactionType :=
  ackIn i :: prevTxAcks p

/-- A concrete environment: derivation yields a fixed nonzero key pair,
compilation always succeeds, every confirmation is accepted, and the
prev-tx hash is the sum of the serialized outputs' amounts modulo 256. -/
def env0 : Env where
  multisig_fingerprint := fun m => some [m.m]
  compile_output := fun o _ => (1, ⟨o.amount, [o.amount % 256]⟩)
  hdnode_ckd := fun _ _ => some ⟨List.replicate 32 5, List.replicate 33 7⟩
  pubkeyhash := fun _ => [2]
  compile_script_sig := fun _ _ => [3]
  compile_script_multisig := fun _ => [4]
  tx_hash := fun t => [(t.fed_outs.foldl (fun acc o => acc + o.amount) 0) % 256]
  sign_digest := fun _ _ => [9]
  sig_to_der := fun s => s
  pubkey_index := fun _ _ => 0
  serialize_script_sig := fun _ _ => [6]
  serialize_script_multisig := fun _ => [7]
  confirm_fee := fun _ => true
  confirm_transaction := fun _ _ => true

/-- The all-zero initial module state (fresh process). -/
def s00 : SState :=
  { inputs_count := 0, outputs_count := 0, coin := ⟨0, 0⟩,
    root := ⟨List.replicate 32 0, List.replicate 33 0⟩,
    node := ⟨List.replicate 32 0, List.replicate 33 0⟩,
    signing := false, stage := Stage.r1Input, idx1 := 0, idx2 := 0,
    to_spend := 0, spending := 0, change_spend := 0,
    input := zeroInput, tc := [], tp := tx_init 0 0 0 0 false,
    ti := tx_init 0 0 0 0 false, t_out := tx_init 0 0 0 0 false,
    hash_check := [], privkey := List.replicate 32 0,
    pubkey := List.replicate 33 0,
    multisig_fp_set := false, multisig_fp_mismatch := false,
    multisig_fp := List.replicate 32 0 }

/-- The spending input of the concrete sessions: a SPENDADDRESS input
whose `prev_hash` matches what `env0.tx_hash` computes for `prevTx1`. -/
def input1 : TxInputType :=
  ⟨[160], 0, InputScriptType.SPENDADDRESS, 0, false, zeroMultisig, [0], []⟩

/-- The single prev-tx input record fed during the prev-tx walk. -/
def prevIn1 : TxInputType := zeroInput

/-- The single prev-tx output: funds 100000 at index 0. -/
def prevOut1 : TxOutputBinType := ⟨100000, []⟩

/-- A plain 90000-unit spend output with an explicit SPEND address type. -/
def out90k : TxOutputType :=
  ⟨90000, OutputScriptType.PAYTOADDRESS, true, "addr1", [], false, zeroMultisig,
    true, OutputAddressType.SPEND⟩

/-- The coin used by the concrete sessions. -/
def coin1 : CoinType := ⟨0, 100000⟩

/-- A complete well-formed 1-input/1-output session: Phase 1 (input,
prev meta, prev input, prev output, output), Phase 2 (input, output) and
Phase 3 (output), host honest in both phases. -/
def acksS1 : List TransactionType :=
  [ackIn input1, ackMeta 1 1 1 0, ackIn prevIn1, ackBin prevOut1,
   ackOut out90k, ackIn input1, ackOut out90k, ackOut out90k]

/-- The root HD node of the concrete sessions. -/
def root1 : HDNode := ⟨List.replicate 32 1, List.replicate 33 1⟩

/-- The full concrete run of `acksS1` from a fresh start. -/
def runS1 : SState × List Event :=
  run env0 (signing_init 1 1 coin1 root1 s00).1 acksS1

/-- Whether an event is the TXFINISHED request. -/
def Event.isFinished : Event → Bool
  | Event.txRequest RequestType.TXFINISHED _ _ _ => true
  | _ => false

/-- Whether an event is a fee-threshold prompt. -/
def Event.isFeePrompt : Event → Bool
  | Event.feePrompt _ => true
  | _ => false

/-- Number of failure messages of any kind in a trace. -/
def countFailures (evs : List Event) : Nat := (evs.filter Event.isFailure).length

/-- Whether an event is the failure message with the given kind and text. -/
def isFailEv (k : FailureType) (m : String) : Event → Bool
  | Event.failure k2 m2 => decide (k2 = k) && decide (m2 = m)
  | _ => false

/-- Number of occurrences of one specific failure message in a trace. -/
def countFail (evs : List Event) (k : FailureType) (m : String) : Nat :=
  (evs.filter (isFailEv k m)).length

/-- An input funded by `prevTxC3` (50000 units); `prev_hash` matches
`env0.tx_hash` on that prev transaction. -/
def input2 : TxInputType :=
  ⟨[80], 0, InputScriptType.SPENDADDRESS, 0, false, zeroMultisig, [0], []⟩

/-- The single prev-tx output of the insufficient-funds session. -/
def prevOut2 : TxOutputBinType := ⟨50000, []⟩

/-- A 60000-unit spend output (more than the 50000 funded). -/
def out60k : TxOutputType := { out90k with amount := 60000 }

/-- An insufficient-funds session (funds 50000, spend 60000) followed by
one more TxAck after the NotEnoughFunds failure. -/
def acksC3 : List TransactionType :=
  [ackIn input2, ackMeta 1 1 1 0, ackIn prevIn1, ackBin prevOut2,
   ackOut out60k, ackOut zeroOutput]

/-- The concrete insufficient-funds run. -/
def runC3 : SState × List Event :=
  run env0 (signing_init 1 1 coin1 root1 s00).1 acksC3

/-- An environment in which the user rejects every displayed output
(`compile_output` with `needs_confirm` returns a negative result) but
compilation without display succeeds. -/
def envRejectOutput : Env :=
  { env0 with
    compile_output := fun o b =>
      if b then (-1, ⟨o.amount, []⟩) else (1, ⟨o.amount, [o.amount % 256]⟩) }

/-- Phase 1 of the S1 session up to the first displayed output. -/
def acksC4 : List TransactionType :=
  [ackIn input1, ackMeta 1 1 1 0, ackIn prevIn1, ackBin prevOut1, ackOut out90k]

/-- The concrete run in which the user rejects the Phase-1 output prompt. -/
def runC4 : SState × List Event :=
  run envRejectOutput (signing_init 1 1 coin1 root1 s00).1 acksC4

/-- A change-classified output with amount 0 (explicit CHANGE type and a
nonempty `address_n` path). -/
def changeOut0 : TxOutputType :=
  ⟨0, OutputScriptType.PAYTOADDRESS, false, "", [1], false, zeroMultisig,
    true, OutputAddressType.CHANGE⟩

/-- A second change-classified output, 39000 units. -/
def changeOut39k : TxOutputType := { changeOut0 with amount := 39000 }

/-- A session whose two outputs are both classified as change, the first
with amount 0. -/
def acksC7 : List TransactionType :=
  [ackIn input1, ackMeta 1 1 1 0, ackIn prevIn1, ackBin prevOut1,
   ackOut changeOut0, ackOut changeOut39k]

/-- The concrete two-change-outputs run. -/
def runC7 : SState × List Event :=
  run env0 (signing_init 1 2 coin1 root1 s00).1 acksC7

/-- Calling `signing_init` again while the first session is still active. -/
def runC8 : SState × List Event :=
  signing_init 2 2 coin1 root1 (signing_init 1 1 coin1 root1 s00).1

/-- A SPENDMULTISIG input establishing the session fingerprint
(`env0.multisig_fingerprint` gives it fingerprint value 1). -/
def msInput : TxInputType :=
  ⟨[160], 0, InputScriptType.SPENDMULTISIG, 0, true, ⟨1, [], []⟩, [0], []⟩

/-- A PAYTOMULTISIG output whose fingerprint (value 2) differs from the
session's, carrying an explicit SPEND address type but no address:
`check_valid_output_address` rejects it. -/
def badMsOut : TxOutputType :=
  ⟨90000, OutputScriptType.PAYTOMULTISIG, false, "", [], true, ⟨2, [], []⟩,
    true, OutputAddressType.SPEND⟩

/-- A session whose first Phase-1 output is `badMsOut` under an active
multisig fingerprint. -/
def acksC10 : List TransactionType :=
  [ackIn msInput, ackMeta 1 1 1 0, ackIn prevIn1, ackBin prevOut1,
   ackOut badMsOut]

/-- The concrete run delivering `badMsOut`. -/
def runC10 : SState × List Event :=
  run env0 (signing_init 1 2 coin1 root1 s00).1 acksC10

/-- Number of failure messages of a given kind in a trace. -/
def countFailKind (evs : List Event) (k : FailureType) : Nat :=
  (evs.filter fun e =>
    match e with
    | Event.failure k' _ => decide (k' = k)
    | _ => false).length

/-- The session state once the last Phase-1 output has been folded in
(change bookkeeping done, totals updated, checksum finalised into
`hash_check`), before the funds/fee checks run. -/
def finaleState (env : Env) (s : SState) (o : TxOutputType) (c : Bool) : SState :=
  { s with change_spend := if c then o.amount else s.change_spend,
           spending := u64add s.spending o.amount,
           tc := s.tc ++ [Chunk.outb (env.compile_output o (!c)).2],
           hash_check := s.tc ++ [Chunk.outb (env.compile_output o (!c)).2] }

/-- The fee the finale computes: `to_spend - spending` on `uint64_t`. -/
def finaleFee (s : SState) (o : TxOutputType) : Nat :=
  u64sub s.to_spend (u64add s.spending o.amount)

/-- The total amount displayed by the final confirmation:
`to_spend - change_spend`. -/
def finaleTotal (s : SState) (o : TxOutputType) (c : Bool) : Nat :=
  u64sub s.to_spend (if c then o.amount else s.change_spend)

/-- The fee-threshold comparison `fee > tx_est_size_kb * coin.maxfee_kb`. -/
def overThreshold (s : SState) (o : TxOutputType) : Prop :=
  u64mul (transactionEstimateSizeKb s.inputs_count s.outputs_count)
    s.coin.maxfee_kb < finaleFee s o

instance (s : SState) (o : TxOutputType) : Decidable (overThreshold s o) := by
  unfold overThreshold
  infer_instance

/-- The previous transaction funding `input1` (one input, one 100000-unit
output). -/
def p1 : PrevTx := ⟨1, 0, [prevIn1], [prevOut1]⟩

/-- The session state right after Phase 1 received `input1` (the engine
has just asked for the prev-tx metadata). -/
def sMeta : SState :=
  (run env0 (signing_init 1 1 coin1 root1 s00).1 [ackIn input1]).1

/-- The session state at the start of the Phase-1 output walk of the S1
session (input and prev-tx verified, `to_spend = 100000`). -/
def s3fin : SState :=
  (run env0 (signing_init 1 1 coin1 root1 s00).1
    [ackIn input1, ackMeta 1 1 1 0, ackIn prevIn1, ackBin prevOut1]).1

/-- A coin with a very low fee threshold (1 unit per kB). -/
def coin2 : CoinType := ⟨0, 1⟩

/-- Same as `s3fin` but under `coin2`, so the 10000-unit fee is over the
threshold. -/
def s3finB : SState :=
  (run env0 (signing_init 1 1 coin2 root1 s00).1
    [ackIn input1, ackMeta 1 1 1 0, ackIn prevIn1, ackBin prevOut1]).1

/-- A 1-input/2-output session that has already accepted one change
output of 39000 units (so `change_spend ≠ 0`), waiting for output 1. -/
def s7 : SState :=
  (run env0 (signing_init 1 2 coin1 root1 s00).1
    [ackIn input1, ackMeta 1 1 1 0, ackIn prevIn1, ackBin prevOut1,
      ackOut changeOut39k]).1

/-- An output with an explicit SPEND address type but no address, outside
the multisig-change branch: `check_valid_output_address` rejects it. -/
def badAddrOut : TxOutputType :=
  ⟨90000, OutputScriptType.PAYTOADDRESS, false, "", [], false, zeroMultisig,
    true, OutputAddressType.SPEND⟩

/-- The full checksum stream for a session of the given declared shape:
the four-word seed, then each input record, then each compiled output. -/
def checksumChunks (ic oc : Nat) (ins : List TxInputType)
    (bins : List TxOutputBinType) : List Chunk :=
  seedChunks ic oc ++ ins.map Chunk.inp ++ bins.map Chunk.outb

/-- Folding `fpStep` over the Phase-1 inputs. -/
def fpFold (env : Env) :
    Bool × Bool × List Nat → List TxInputType → Option (Bool × Bool × List Nat)
  | st, [] => some st
  | st, i :: rest =>
    match fpStep env st.1 st.2.1 st.2.2 i with
    | none => none
    | some st2 => fpFold env st2 rest

/-- The `spending` accumulated over a list of outputs. -/
def spendOutsFold (acc : Nat) (os : List TxOutputType) : Nat :=
  os.foldl (fun a o => u64add a o.amount) acc

/-- The `change_spend` accumulated over a list of outputs with the given
change flags. -/
def changeFold (ch : TxOutputType → Bool) (acc : Nat)
    (os : List TxOutputType) : Nat :=
  os.foldl (fun a o => if ch o then o.amount else a) acc

/-- The compiled binary outputs of a Phase-1 output walk (display flag
`!ch o` per output). -/
def binsOf1 (env : Env) (ch : TxOutputType → Bool)
    (os : List TxOutputType) : List TxOutputBinType :=
  os.map fun o => (env.compile_output o (!ch o)).2

/-- The compiled binary outputs of a Phase-2 walk (no display). -/
def binsOf2 (env : Env) (os : List TxOutputType) : List TxOutputBinType :=
  os.map fun o => (env.compile_output o false).2

/-- Whether a Phase-1 output walk passes the change-slot guard: a
change-classified output requires the accumulator to still be 0 and then
occupies it with its amount. -/
def changeOk (ch : TxOutputType → Bool) : Nat → List TxOutputType → Bool
  | _, [] => true
  | cs, o :: rest =>
    if ch o then (cs == 0) && changeOk ch o.amount rest
    else changeOk ch cs rest

/-- The scriptSig placeholder construction for the target input of a
Phase-2 walk: derive the node, compile the multisig or P2PKH script;
`none` on any failure (the engine aborts there). -/
def targetScript (env : Env) (c : CoinType) (r : HDNode) (i : TxInputType) :
    Option (HDNode × List Nat) :=
  match env.hdnode_ckd r i.address_n with
  | none => none
  | some nd =>
    if i.script_type = InputScriptType.SPENDMULTISIG then
      if ¬i.has_multisig then none
      else
        let ss := env.compile_script_multisig i.multisig
        if ss.length = 0 then none else some (nd, ss)
    else
      let ss := env.compile_script_sig c.address_type (env.pubkeyhash nd.public_key)
      if ss.length = 0 then none else some (nd, ss)

/-- The TxAck sequence of one Phase-2 signing walk (or of the Phase-1
output walk): each input record, then each output record. -/
def walkAcks (ins : List TxInputType) (os : List TxOutputType) :
    List TransactionType :=
  ins.map ackIn ++ os.map ackOut

/-- An environment in which the user rejects the fee prompt. -/
def envRejectFee : Env := { env0 with confirm_fee := fun _ => false }

/-- An environment in which the user rejects the final confirmation. -/
def envRejectFinal : Env :=
  { env0 with confirm_transaction := fun _ _ => false }

/-- Whether an outbound message carries a signature. -/
def Event.hasSignature : Event → Bool
  | Event.txRequest _ _ _ (some ser) => ser.signature.isSome
  | _ => false

/-- The `to_spend` accumulation performed by the prev-tx output loop:
starting at inner index `k` with accumulator `acc`, add (with 64-bit
wraparound) the amount of the output whose index equals `pi`. -/
def prevAdd (pi : Nat) : Nat → Nat → List TxOutputBinType → Nat
  | _, acc, [] => acc
  | k, acc, b :: rest =>
    prevAdd pi (k + 1) (if k = pi then u64add acc b.amount else acc) rest

/-- The `to_spend` accumulated over the Phase-1 inputs (each input adds
the amount of its referenced prev-tx output). -/
def spendFold : Nat → List (TxInputType × PrevTx) → Nat
  | acc, [] => acc
  | acc, q :: rest => spendFold (prevAdd q.1.prev_index 0 acc q.2.pouts) rest

/-! ### Lemmas about the driver and machine arithmetic -/

theorem run_nil (env : Env) (s : SState) : run env s [] = (s, []) := rfl

theorem run_cons (env : Env) (s : SState) (a : TransactionType)
    (l : List TransactionType) :
    run env s (a :: l) =
      ((run env (signing_txack env s a).1 l).1,
        (signing_txack env s a).2 ++ (run env (signing_txack env s a).1 l).2) := rfl

theorem run_append (env : Env) (l1 l2 : List TransactionType) :
    ∀ s : SState,
      run env s (l1 ++ l2) =
        ((run env (run env s l1).1 l2).1,
          (run env s l1).2 ++ (run env (run env s l1).1 l2).2) := by
  induction l1 with
  | nil => intro s; simp [run_nil]
  | cons a l ih =>
    intro s
    simp [run_cons, ih, List.append_assoc]

theorem U32_val : U32 = 4294967296 := rfl

theorem U64_val : U64 = 18446744073709551616 := rfl

theorem u32pred_succ {n : Nat} (h : n + 1 < U32) : u32pred (n + 1) = n := by
  rw [U32_val] at h
  simp only [u32pred, U32_val]
  omega

theorem u64sub_of_le {a b : Nat} (hb : b ≤ a) (ha : a < U64) :
    u64sub a b = a - b := by
  rw [U64_val] at ha
  simp only [u64sub, U64_val]
  omega

@[simp] theorem ackIn_inputs (i : TxInputType) : (ackIn i).inputs = i := rfl

@[simp] theorem ackOut_outputs (o : TxOutputType) : (ackOut o).outputs = o := rfl

@[simp] theorem ackBin_bin (b : TxOutputBinType) : (ackBin b).bin_outputs = b := rfl

theorem u32pred_of_pos {n : Nat} (h1 : 1 ≤ n) (h2 : n < U32) :
    u32pred n = n - 1 := by
  have h3 : n = (n - 1) + 1 := by omega
  rw [h3]
  rw [u32pred_succ (h3 ▸ h2)]
  omega

/-! ### The prev-tx sub-walk (STAGE_REQUEST_2_PREV_INPUT / _OUTPUT) -/

theorem stage2in_cont (env : Env) (s : SState) (x : TxInputType)
    (hs : s.signing = true) (hst : s.stage = Stage.r2PrevInput)
    (hfed : s.tp.fed_ins.length < s.tp.inputs_len)
    (hcont : s.idx2 < u32pred s.tp.inputs_len) :
    signing_txack env s (ackIn x) =
      ({ s with tp := { s.tp with fed_ins := s.tp.fed_ins ++ [x] },
                idx2 := s.idx2 + 1 },
        [Event.txRequest RequestType.TXINPUT (some (s.idx2 + 1))
          (some s.input.prev_hash) none]) := by
  have hser : tx_serialize_input_hash s.tp x =
      some { s.tp with fed_ins := s.tp.fed_ins ++ [x] } := by
    simp [tx_serialize_input_hash, hfed]
  simp [signing_txack, hs, hst, stage2in, hser, hcont]

theorem stage2in_last (env : Env) (s : SState) (x : TxInputType)
    (hs : s.signing = true) (hst : s.stage = Stage.r2PrevInput)
    (hfed : s.tp.fed_ins.length < s.tp.inputs_len)
    (hlast : ¬s.idx2 < u32pred s.tp.inputs_len) :
    signing_txack env s (ackIn x) =
      ({ s with tp := { s.tp with fed_ins := s.tp.fed_ins ++ [x] },
                idx2 := 0, stage := Stage.r2PrevOutput },
        [Event.txRequest RequestType.TXOUTPUT (some 0)
          (some s.input.prev_hash) none]) := by
  have hser : tx_serialize_input_hash s.tp x =
      some { s.tp with fed_ins := s.tp.fed_ins ++ [x] } := by
    simp [tx_serialize_input_hash, hfed]
  simp [signing_txack, hs, hst, stage2in, hser, hlast]

theorem run_prev_ins (env : Env) (xs : List TxInputType) :
    ∀ s : SState, s.signing = true → s.stage = Stage.r2PrevInput →
      s.idx2 = s.tp.fed_ins.length →
      s.idx2 + xs.length = s.tp.inputs_len →
      xs ≠ [] → s.tp.inputs_len < U32 →
      (run env s (xs.map ackIn)).1 =
        { s with tp := { s.tp with fed_ins := s.tp.fed_ins ++ xs },
                 idx2 := 0, stage := Stage.r2PrevOutput } ∧
      countFailures (run env s (xs.map ackIn)).2 = 0 := by
  induction xs with
  | nil => intro s _ _ _ _ hne _; exact absurd rfl hne
  | cons x xs ih =>
    intro s hs hst hidx hsum _ hlt
    have hfed : s.tp.fed_ins.length < s.tp.inputs_len := by
      simp only [List.length_cons] at hsum
      omega
    cases xs with
    | nil =>
      have hlast : ¬s.idx2 < u32pred s.tp.inputs_len := by
        rw [u32pred_of_pos (by omega) hlt]
        simp only [List.length_cons, List.length_nil] at hsum
        omega
      rw [List.map_cons, List.map_nil, run_cons,
        stage2in_last env s x hs hst hfed hlast]
      exact ⟨rfl, rfl⟩
    | cons y ys =>
      have hcont : s.idx2 < u32pred s.tp.inputs_len := by
        rw [u32pred_of_pos (by omega) hlt]
        simp only [List.length_cons] at hsum
        omega
      have ihr := ih
        { s with tp := { s.tp with fed_ins := s.tp.fed_ins ++ [x] },
                 idx2 := s.idx2 + 1 }
        hs hst
        (by show s.idx2 + 1 = (s.tp.fed_ins ++ [x]).length; simp [hidx])
        (by
          show s.idx2 + 1 + (y :: ys).length = s.tp.inputs_len
          simp only [List.length_cons] at hsum ⊢
          omega)
        (by simp) hlt
      rw [List.map_cons, run_cons, stage2in_cont env s x hs hst hfed hcont]
      refine ⟨ihr.1.trans ?_, ?_⟩
      · simp
      · show countFailures
          ([Event.txRequest RequestType.TXINPUT (some (s.idx2 + 1))
            (some s.input.prev_hash) none] ++
            (run env _ (List.map ackIn (y :: ys))).2) = 0
        simp only [countFailures, List.filter_append, List.length_append,
          List.filter, Event.isFailure]
        simpa [countFailures] using ihr.2

theorem stage2out_cont (env : Env) (s : SState) (b : TxOutputBinType)
    (hs : s.signing = true) (hst : s.stage = Stage.r2PrevOutput)
    (hin : s.tp.inputs_len ≤ s.tp.fed_ins.length)
    (hfed : s.tp.fed_outs.length < s.tp.outputs_len)
    (hcont : s.idx2 < u32pred s.tp.outputs_len) :
    signing_txack env s (ackBin b) =
      ({ s with tp := { s.tp with fed_outs := s.tp.fed_outs ++ [b] },
                to_spend := if s.idx2 = s.input.prev_index
                  then u64add s.to_spend b.amount else s.to_spend,
                idx2 := s.idx2 + 1 },
        [Event.txRequest RequestType.TXOUTPUT (some (s.idx2 + 1))
          (some s.input.prev_hash) none]) := by
  have hser : tx_serialize_output_hash s.tp b =
      some { s.tp with fed_outs := s.tp.fed_outs ++ [b] } := by
    simp [tx_serialize_output_hash, hin, hfed]
  by_cases hpi : s.idx2 = s.input.prev_index
  · have hcont' := hpi ▸ hcont
    simp [signing_txack, hs, hst, stage2out, hser, hpi, hcont']
  · simp [signing_txack, hs, hst, stage2out, hser, hpi, hcont]

theorem stage2out_last_bad (env : Env) (s : SState) (b : TxOutputBinType)
    (hs : s.signing = true) (hst : s.stage = Stage.r2PrevOutput)
    (hin : s.tp.inputs_len ≤ s.tp.fed_ins.length)
    (hfed : s.tp.fed_outs.length < s.tp.outputs_len)
    (hlast : ¬s.idx2 < u32pred s.tp.outputs_len)
    (hbad : env.tx_hash { s.tp with fed_outs := s.tp.fed_outs ++ [b] } ≠
      s.input.prev_hash) :
    signing_txack env s (ackBin b) =
      ({ s with tp := { s.tp with fed_outs := s.tp.fed_outs ++ [b] },
                to_spend := if s.idx2 = s.input.prev_index
                  then u64add s.to_spend b.amount else s.to_spend,
                signing := false },
        [Event.failure FailureType.Other "Encountered invalid prevhash",
          Event.goHome]) := by
  have hser : tx_serialize_output_hash s.tp b =
      some { s.tp with fed_outs := s.tp.fed_outs ++ [b] } := by
    simp [tx_serialize_output_hash, hin, hfed]
  by_cases hpi : s.idx2 = s.input.prev_index
  · have hlast' := hpi ▸ hlast
    simp [signing_txack, hs, hst, stage2out, hser, hlast', hpi, hbad,
      failAbort, signing_abort]
  · simp [signing_txack, hs, hst, stage2out, hser, hlast, hpi, hbad,
      failAbort, signing_abort]

theorem stage2out_last_ok (env : Env) (s : SState) (b : TxOutputBinType)
    (hs : s.signing = true) (hst : s.stage = Stage.r2PrevOutput)
    (hin : s.tp.inputs_len ≤ s.tp.fed_ins.length)
    (hfed : s.tp.fed_outs.length < s.tp.outputs_len)
    (hlast : ¬s.idx2 < u32pred s.tp.outputs_len)
    (hok : env.tx_hash { s.tp with fed_outs := s.tp.fed_outs ++ [b] } =
      s.input.prev_hash) :
    signing_txack env s (ackBin b) =
      (if s.idx1 < u32pred s.inputs_count then
        ({ s with tp := { s.tp with fed_outs := s.tp.fed_outs ++ [b] },
                  to_spend := if s.idx2 = s.input.prev_index
                    then u64add s.to_spend b.amount else s.to_spend,
                  idx1 := s.idx1 + 1, stage := Stage.r1Input },
          [Event.txRequest RequestType.TXINPUT (some (s.idx1 + 1)) none none])
      else
        ({ s with tp := { s.tp with fed_outs := s.tp.fed_outs ++ [b] },
                  to_spend := if s.idx2 = s.input.prev_index
                    then u64add s.to_spend b.amount else s.to_spend,
                  idx1 := 0, stage := Stage.r3Output },
          [Event.txRequest RequestType.TXOUTPUT (some 0) none none])) := by
  have hser : tx_serialize_output_hash s.tp b =
      some { s.tp with fed_outs := s.tp.fed_outs ++ [b] } := by
    simp [tx_serialize_output_hash, hin, hfed]
  by_cases hpi : s.idx2 = s.input.prev_index
  · have hlast' := hpi ▸ hlast
    by_cases hi1 : s.idx1 < u32pred s.inputs_count <;>
      simp [signing_txack, hs, hst, stage2out, hser, hlast', hpi, hok, hi1]
  · by_cases hi1 : s.idx1 < u32pred s.inputs_count <;>
      simp [signing_txack, hs, hst, stage2out, hser, hlast, hpi, hok, hi1]

theorem run_prev_outs (env : Env) (ys : List TxOutputBinType) :
    ∀ s : SState, s.signing = true → s.stage = Stage.r2PrevOutput →
      s.tp.inputs_len ≤ s.tp.fed_ins.length →
      s.idx2 = s.tp.fed_outs.length →
      s.idx2 + ys.length = s.tp.outputs_len →
      ys ≠ [] → s.tp.outputs_len < U32 →
      (env.tx_hash { s.tp with fed_outs := s.tp.fed_outs ++ ys } =
          s.input.prev_hash →
        (run env s (ys.map ackBin)).1 =
          (if s.idx1 < u32pred s.inputs_count then
            { s with tp := { s.tp with fed_outs := s.tp.fed_outs ++ ys },
                     to_spend := prevAdd s.input.prev_index s.idx2 s.to_spend ys,
                     idx2 := s.idx2 + (ys.length - 1),
                     idx1 := s.idx1 + 1, stage := Stage.r1Input }
          else
            { s with tp := { s.tp with fed_outs := s.tp.fed_outs ++ ys },
                     to_spend := prevAdd s.input.prev_index s.idx2 s.to_spend ys,
                     idx2 := s.idx2 + (ys.length - 1),
                     idx1 := 0, stage := Stage.r3Output }) ∧
        countFailures (run env s (ys.map ackBin)).2 = 0) ∧
      (env.tx_hash { s.tp with fed_outs := s.tp.fed_outs ++ ys } ≠
          s.input.prev_hash →
        (run env s (ys.map ackBin)).1 =
          { s with tp := { s.tp with fed_outs := s.tp.fed_outs ++ ys },
                   to_spend := prevAdd s.input.prev_index s.idx2 s.to_spend ys,
                   idx2 := s.idx2 + (ys.length - 1),
                   signing := false } ∧
        ∃ pre, (run env s (ys.map ackBin)).2 =
          pre ++ [Event.failure FailureType.Other "Encountered invalid prevhash",
            Event.goHome] ∧
          countFailures pre = 0) := by
  induction ys with
  | nil => intro s _ _ _ _ _ hne _; exact absurd rfl hne
  | cons y ys ih =>
    intro s hs hst hin hidx hsum _ hlt
    have hfed : s.tp.fed_outs.length < s.tp.outputs_len := by
      simp only [List.length_cons] at hsum
      omega
    cases ys with
    | nil =>
      have hlast : ¬s.idx2 < u32pred s.tp.outputs_len := by
        rw [u32pred_of_pos (by omega) hlt]
        simp only [List.length_cons, List.length_nil] at hsum
        omega
      constructor
      · intro hok
        rw [List.map_cons, List.map_nil, run_cons,
          stage2out_last_ok env s y hs hst hin hfed hlast hok]
        by_cases hi1 : s.idx1 < u32pred s.inputs_count
        · rw [if_pos hi1, if_pos hi1]
          exact ⟨rfl, rfl⟩
        · rw [if_neg hi1, if_neg hi1]
          exact ⟨rfl, rfl⟩
      · intro hbad
        rw [List.map_cons, List.map_nil, run_cons,
          stage2out_last_bad env s y hs hst hin hfed hlast hbad]
        exact ⟨rfl, [], rfl, rfl⟩
    | cons z zs =>
      have hcont : s.idx2 < u32pred s.tp.outputs_len := by
        rw [u32pred_of_pos (by omega) hlt]
        simp only [List.length_cons] at hsum
        omega
      have ihr := ih
        { s with tp := { s.tp with fed_outs := s.tp.fed_outs ++ [y] },
                 to_spend := if s.idx2 = s.input.prev_index
                   then u64add s.to_spend y.amount else s.to_spend,
                 idx2 := s.idx2 + 1 }
        hs hst hin
        (by show s.idx2 + 1 = (s.tp.fed_outs ++ [y]).length; simp [hidx])
        (by
          show s.idx2 + 1 + (z :: zs).length = s.tp.outputs_len
          simp only [List.length_cons] at hsum ⊢
          omega)
        (by simp) hlt
      have hfull : (s.tp.fed_outs ++ [y]) ++ z :: zs = s.tp.fed_outs ++ y :: z :: zs := by
        simp
      have hidx2 : s.idx2 + 1 + ((z :: zs).length - 1) =
          s.idx2 + ((y :: z :: zs).length - 1) := by
        simp only [List.length_cons]
        omega
      rw [List.map_cons, run_cons, stage2out_cont env s y hs hst hin hfed hcont]
      constructor
      · intro hok
        have hok' : env.tx_hash
            { { s with tp := { s.tp with fed_outs := s.tp.fed_outs ++ [y] },
                       to_spend := if s.idx2 = s.input.prev_index
                         then u64add s.to_spend y.amount else s.to_spend,
                       idx2 := s.idx2 + 1 }.tp with
              fed_outs := (s.tp.fed_outs ++ [y]) ++ z :: zs } =
            s.input.prev_hash := by
          show env.tx_hash { s.tp with fed_outs := (s.tp.fed_outs ++ [y]) ++ z :: zs } =
            s.input.prev_hash
          rw [hfull]
          exact hok
        obtain ⟨h1, h2⟩ := ihr.1 hok'
        refine ⟨h1.trans ?_, ?_⟩
        · by_cases hi1 : s.idx1 < u32pred s.inputs_count
          · rw [if_pos hi1, if_pos hi1]
            simp only [prevAdd, hfull, hidx2]
          · rw [if_neg hi1, if_neg hi1]
            simp only [prevAdd, hfull, hidx2]
        · show countFailures
            ([Event.txRequest RequestType.TXOUTPUT (some (s.idx2 + 1))
              (some s.input.prev_hash) none] ++
              (run env _ (List.map ackBin (z :: zs))).2) = 0
          simp only [countFailures, List.filter_append, List.length_append,
            List.filter, Event.isFailure]
          simpa [countFailures] using h2
      · intro hbad
        have hbad' : env.tx_hash
            { { s with tp := { s.tp with fed_outs := s.tp.fed_outs ++ [y] },
                       to_spend := if s.idx2 = s.input.prev_index
                         then u64add s.to_spend y.amount else s.to_spend,
                       idx2 := s.idx2 + 1 }.tp with
              fed_outs := (s.tp.fed_outs ++ [y]) ++ z :: zs } ≠
            s.input.prev_hash := by
          show env.tx_hash { s.tp with fed_outs := (s.tp.fed_outs ++ [y]) ++ z :: zs } ≠
            s.input.prev_hash
          rw [hfull]
          exact hbad
        obtain ⟨h1, pre, hpre, hcnt⟩ := ihr.2 hbad'
        refine ⟨h1.trans ?_, ?_⟩
        · simp only [prevAdd, hfull, hidx2]
        · refine ⟨Event.txRequest RequestType.TXOUTPUT (some (s.idx2 + 1))
            (some s.input.prev_hash) none :: pre, ?_, ?_⟩
          · show [Event.txRequest RequestType.TXOUTPUT (some (s.idx2 + 1))
                (some s.input.prev_hash) none] ++
              (run env _ (List.map ackBin (z :: zs))).2 = _
            rw [hpre]
            simp
          · simpa [countFailures, List.filter, Event.isFailure] using hcnt

theorem stage1_step (env : Env) (s : SState) (i : TxInputType)
    (f : Bool × Bool × List Nat)
    (hs : s.signing = true) (hst : s.stage = Stage.r1Input)
    (hfp : fpStep env s.multisig_fp_set s.multisig_fp_mismatch s.multisig_fp i =
      some f) :
    signing_txack env s (ackIn i) =
      ({ s with multisig_fp_set := f.1, multisig_fp_mismatch := f.2.1,
                multisig_fp := f.2.2,
                tc := s.tc ++ [Chunk.inp i], input := i,
                stage := Stage.r2PrevMeta },
        [Event.txRequest RequestType.TXMETA none (some i.prev_hash) none]) := by
  simp [signing_txack, hs, hst, stage1, hfp, stage1tail]

theorem stage2meta_step (env : Env) (s : SState) (ic oc v l : Nat)
    (hs : s.signing = true) (hst : s.stage = Stage.r2PrevMeta) :
    signing_txack env s (ackMeta ic oc v l) =
      ({ s with tp := tx_init ic oc v l false, idx2 := 0,
                stage := Stage.r2PrevInput },
        [Event.txRequest RequestType.TXINPUT (some 0)
          (some s.input.prev_hash) none]) := by
  simp [signing_txack, hs, hst, stage2meta, ackMeta, baseTT]

theorem run_prev_walk (env : Env) (p : PrevTx) (s : SState)
    (hs : s.signing = true) (hst : s.stage = Stage.r2PrevMeta)
    (hpi : p.pins ≠ []) (hpo : p.pouts ≠ [])
    (hli : p.pins.length < U32) (hlo : p.pouts.length < U32) :
    (env.tx_hash (prevStruct p) = s.input.prev_hash →
      (run env s (prevTxAcks p)).1 =
        (if s.idx1 < u32pred s.inputs_count then
          { s with tp := prevStruct p,
                   to_spend := prevAdd s.input.prev_index 0 s.to_spend p.pouts,
                   idx2 := p.pouts.length - 1,
                   idx1 := s.idx1 + 1, stage := Stage.r1Input }
        else
          { s with tp := prevStruct p,
                   to_spend := prevAdd s.input.prev_index 0 s.to_spend p.pouts,
                   idx2 := p.pouts.length - 1,
                   idx1 := 0, stage := Stage.r3Output }) ∧
      countFailures (run env s (prevTxAcks p)).2 = 0) ∧
    (env.tx_hash (prevStruct p) ≠ s.input.prev_hash →
      (run env s (prevTxAcks p)).1 =
        { s with tp := prevStruct p,
                 to_spend := prevAdd s.input.prev_index 0 s.to_spend p.pouts,
                 idx2 := p.pouts.length - 1, stage := Stage.r2PrevOutput,
                 signing := false } ∧
      ∃ pre, (run env s (prevTxAcks p)).2 =
        pre ++ [Event.failure FailureType.Other "Encountered invalid prevhash",
          Event.goHome] ∧ countFailures pre = 0) := by
  have e1 := stage2meta_step env s p.pins.length p.pouts.length p.version
    p.lock_time hs hst
  set S1 : SState :=
    { s with tp := tx_init p.pins.length p.pouts.length p.version p.lock_time false,
             idx2 := 0, stage := Stage.r2PrevInput } with hS1
  obtain ⟨h1, h1c⟩ := run_prev_ins env p.pins S1
    (by rw [hS1]; exact hs) (by rw [hS1]) (by rw [hS1]; rfl)
    (by rw [hS1]; simp [tx_init]) hpi (by rw [hS1]; exact hli)
  set S3 : SState :=
    { S1 with tp := { S1.tp with fed_ins := S1.tp.fed_ins ++ p.pins },
              idx2 := 0, stage := Stage.r2PrevOutput } with hS3
  obtain ⟨hok2, hbad2⟩ := run_prev_outs env p.pouts S3
    (by rw [hS3, hS1]; exact hs) (by rw [hS3])
    (by rw [hS3, hS1]; simp [tx_init])
    (by rw [hS3, hS1]; simp [tx_init])
    (by rw [hS3, hS1]; simp [tx_init]) hpo
    (by rw [hS3, hS1]; simpa [tx_init] using hlo)
  have hconv : ({ S3.tp with fed_outs := S3.tp.fed_outs ++ p.pouts } : TxStruct) =
      prevStruct p := by
    rw [hS3, hS1]
    simp [tx_init, prevStruct]
  have hinp : S3.input = s.input := by rw [hS3, hS1]
  have hrun : run env s (prevTxAcks p) =
      ((run env S3 (p.pouts.map ackBin)).1,
        [Event.txRequest RequestType.TXINPUT (some 0)
          (some s.input.prev_hash) none] ++
          ((run env S1 (p.pins.map ackIn)).2 ++
            (run env S3 (p.pouts.map ackBin)).2)) := by
    show run env s (ackMeta p.pins.length p.pouts.length p.version p.lock_time ::
      (p.pins.map ackIn ++ p.pouts.map ackBin)) = _
    rw [run_cons, e1, run_append, h1]
  rw [hconv, hinp] at hok2 hbad2
  constructor
  · intro hok
    obtain ⟨hst2, hcnt2⟩ := hok2 hok
    constructor
    · rw [hrun, hst2]
      by_cases hi1 : s.idx1 < u32pred s.inputs_count
      · have hi1' : S3.idx1 < u32pred S3.inputs_count := by
          rw [hS3, hS1]; exact hi1
        rw [if_pos hi1', if_pos hi1]
        rw [hS3, hS1]
        simp [tx_init, prevStruct]
      · have hi1' : ¬S3.idx1 < u32pred S3.inputs_count := by
          rw [hS3, hS1]; exact hi1
        rw [if_neg hi1', if_neg hi1]
        rw [hS3, hS1]
        simp [tx_init, prevStruct]
    · rw [hrun]
      simp only [countFailures, List.filter_append, List.length_append,
        List.filter, Event.isFailure]
      have c1 : countFailures (run env S1 (p.pins.map ackIn)).2 = 0 := h1c
      have c2 : countFailures (run env S3 (p.pouts.map ackBin)).2 = 0 := hcnt2
      simp only [countFailures] at c1 c2
      simp [c1, c2]
  · intro hbad
    obtain ⟨hst2, pre, hpre, hcnt2⟩ := hbad2 hbad
    constructor
    · rw [hrun, hst2, hS3, hS1]
      simp [tx_init, prevStruct]
    · refine ⟨Event.txRequest RequestType.TXINPUT (some 0)
        (some s.input.prev_hash) none ::
          ((run env S1 (p.pins.map ackIn)).2 ++ pre), ?_, ?_⟩
      · rw [hrun, hpre]
        simp
      · simp only [countFailures, List.filter_append, List.length_append,
          List.filter, Event.isFailure] at h1c hcnt2 ⊢
        simp [countFailures] at h1c hcnt2 ⊢
        exact ⟨h1c, hcnt2⟩

/-! ### Claim C5 -/

/-- C5: for every input processed in Phase 1, after the last prev-tx
output is received the engine finalises the rebuilt previous transaction's
hash (`tx_hash`, the double SHA-256 of the serialized stream) and compares
it to the held input's `prev_hash`. When the hash matches, the walk
advances, with no failure, to the next input or — after the last input —
to the output stage; when it does not match (any altered byte of the
previous transaction's header, inputs or outputs, absent a hash
collision), the session fails with Other/"Encountered invalid prevhash"
and aborts. -/
theorem c5_prev_hash_verification (env : Env) (p : PrevTx) (s : SState)
    (hs : s.signing = true) (hst : s.stage = Stage.r2PrevMeta)
    (hpi : p.pins ≠ []) (hpo : p.pouts ≠ [])
    (hli : p.pins.length < U32) (hlo : p.pouts.length < U32) :
    (env.tx_hash (prevStruct p) = s.input.prev_hash →
      (run env s (prevTxAcks p)).1 =
        (if s.idx1 < u32pred s.inputs_count then
          { s with tp := prevStruct p,
                   to_spend := prevAdd s.input.prev_index 0 s.to_spend p.pouts,
                   idx2 := p.pouts.length - 1,
                   idx1 := s.idx1 + 1, stage := Stage.r1Input }
        else
          { s with tp := prevStruct p,
                   to_spend := prevAdd s.input.prev_index 0 s.to_spend p.pouts,
                   idx2 := p.pouts.length - 1,
                   idx1 := 0, stage := Stage.r3Output }) ∧
      countFailures (run env s (prevTxAcks p)).2 = 0) ∧
    (env.tx_hash (prevStruct p) ≠ s.input.prev_hash →
      (run env s (prevTxAcks p)).1 =
        { s with tp := prevStruct p,
                 to_spend := prevAdd s.input.prev_index 0 s.to_spend p.pouts,
                 idx2 := p.pouts.length - 1, stage := Stage.r2PrevOutput,
                 signing := false } ∧
      ∃ pre, (run env s (prevTxAcks p)).2 =
        pre ++ [Event.failure FailureType.Other "Encountered invalid prevhash",
          Event.goHome] ∧ countFailures pre = 0) :=
  run_prev_walk env p s hs hst hpi hpo hli hlo

/-- Witness for C5: a concrete honest prev-tx walk matches the held hash,
advances to the output stage and produces no failure. -/
theorem c5_prev_hash_verification_witness :
    env0.tx_hash (prevStruct p1) = sMeta.input.prev_hash ∧
    (run env0 sMeta (prevTxAcks p1)).1.stage = Stage.r3Output ∧
    countFailures (run env0 sMeta (prevTxAcks p1)).2 = 0 := by
  have h := (c5_prev_hash_verification env0 p1 sMeta (by decide) (by decide)
    (by decide) (by decide) (by decide) (by decide)).1 (by decide)
  refine ⟨by decide, ?_, h.2⟩
  rw [h.1]
  decide

/-! ### The Phase-1 output stage (STAGE_REQUEST_3_OUTPUT) -/

theorem stage3_dispatch (env : Env) (s : SState) (o : TxOutputType) (c : Bool)
    (hs : s.signing = true) (hst : s.stage = Stage.r3Output)
    (hcl : classifyOutput env s.multisig_fp_set s.multisig_fp_mismatch
      s.multisig_fp o = ClassRes.ok c) :
    signing_txack env s (ackOut o) = stage3cont env s o c := by
  simp [signing_txack, hs, hst, stage3, hcl]

/-! ### Claims C6 and C9 (the Phase-1 finale) -/

theorem stage3cont_last (env : Env) (s : SState) (o : TxOutputType) (c : Bool)
    (hs : s.signing = true)
    (hch : c = true → s.change_spend = 0)
    (hco : 0 < (env.compile_output o (!c)).1)
    (hlast : ¬s.idx1 < u32pred s.outputs_count) :
    stage3cont env s o c =
      if s.to_spend < u64add s.spending o.amount then
        (finaleState env s o c,
          [Event.failure FailureType.NotEnoughFunds "Not enough funds",
            Event.goHome])
      else if overThreshold s o then
        if env.confirm_fee (finaleFee s o) then
          if env.confirm_transaction (finaleTotal s o c) (finaleFee s o) then
            ({ (finaleState env s o c) with
                idx1 := 0, idx2 := 0, stage := Stage.r4Input },
              [Event.feePrompt (finaleFee s o),
                Event.finalPrompt (finaleTotal s o c) (finaleFee s o),
                Event.txRequest RequestType.TXINPUT (some 0) none none])
          else
            ({ (finaleState env s o c) with signing := false },
              [Event.feePrompt (finaleFee s o),
                Event.finalPrompt (finaleTotal s o c) (finaleFee s o),
                Event.failure FailureType.ActionCancelled
                  "Signing cancelled by user",
                Event.goHome])
        else
          (finaleState env s o c,
            [Event.feePrompt (finaleFee s o),
              Event.failure FailureType.ActionCancelled
                "Fee over threshold. Signing cancelled.",
              Event.goHome])
      else
        if env.confirm_transaction (finaleTotal s o c) (finaleFee s o) then
          ({ (finaleState env s o c) with
              idx1 := 0, idx2 := 0, stage := Stage.r4Input },
            [Event.finalPrompt (finaleTotal s o c) (finaleFee s o),
              Event.txRequest RequestType.TXINPUT (some 0) none none])
        else
          ({ (finaleState env s o c) with signing := false },
            [Event.finalPrompt (finaleTotal s o c) (finaleFee s o),
              Event.failure FailureType.ActionCancelled
                "Signing cancelled by user",
              Event.goHome]) := by
  have hneg : ¬(env.compile_output o (!c)).1 < 0 := by omega
  have hzer : ¬(env.compile_output o (!c)).1 = 0 := by omega
  by_cases hover : s.to_spend < u64add s.spending o.amount
  · cases c with
    | true =>
      simp only [Bool.not_true] at hneg hzer
      simp [stage3cont, hch rfl, hneg, hzer, hlast, hover, finaleState,
        finaleFee, finaleTotal, overThreshold]
    | false =>
      simp only [Bool.not_false] at hneg hzer
      simp [stage3cont, hneg, hzer, hlast, hover, finaleState,
        finaleFee, finaleTotal, overThreshold]
  · by_cases hth : overThreshold s o
    all_goals
      by_cases hcf : env.confirm_fee (finaleFee s o) = true
    all_goals
      by_cases hct : env.confirm_transaction (finaleTotal s o c)
        (finaleFee s o) = true
    all_goals cases c
    all_goals
      simp only [Bool.not_true, Bool.not_false] at hneg hzer
    all_goals
      simp only [overThreshold, finaleFee, finaleTotal, if_true, if_false,
        Bool.false_eq_true, Bool.not_eq_true] at hth hcf hct ⊢
    all_goals
      first
      | simp [stage3cont, hch rfl, hneg, hzer, hlast, hover, hth, hcf, hct,
          finaleState, finaleFee, finaleTotal, overThreshold,
          failAbort, signing_abort, hs]
      | simp [stage3cont, hneg, hzer, hlast, hover, hth, hcf, hct,
          finaleState, finaleFee, finaleTotal, overThreshold,
          failAbort, signing_abort, hs]

/-- C6: at the end of the Phase-1 output walk the engine fails with
NotEnoughFunds/"Not enough funds" — staying in the output stage, never
requesting a Phase-2 input — exactly when the accumulated spending
exceeds `to_spend`; when it does not, no NotEnoughFunds failure occurs,
and the fee carried by the next prompt equals `to_spend − spending`, so
`spending + fee = to_spend` (fee is a natural number, hence `≥ 0`). -/
theorem c6_funds_check_and_conservation (env : Env) (s : SState)
    (o : TxOutputType) (c : Bool)
    (hs : s.signing = true) (hst : s.stage = Stage.r3Output)
    (hcl : classifyOutput env s.multisig_fp_set s.multisig_fp_mismatch
      s.multisig_fp o = ClassRes.ok c)
    (hch : c = true → s.change_spend = 0)
    (hco : 0 < (env.compile_output o (!c)).1)
    (hlast : ¬s.idx1 < u32pred s.outputs_count)
    (hts : s.to_spend < U64) :
    (s.to_spend < u64add s.spending o.amount →
      (signing_txack env s (ackOut o)).2 =
        [Event.failure FailureType.NotEnoughFunds "Not enough funds",
          Event.goHome] ∧
      (signing_txack env s (ackOut o)).1.signing = true ∧
      (signing_txack env s (ackOut o)).1.stage = Stage.r3Output) ∧
    (¬s.to_spend < u64add s.spending o.amount →
      countFail (signing_txack env s (ackOut o)).2
        FailureType.NotEnoughFunds "Not enough funds" = 0 ∧
      u64add s.spending o.amount +
        u64sub s.to_spend (u64add s.spending o.amount) = s.to_spend ∧
      (∃ t, (signing_txack env s (ackOut o)).2.head? =
          some (Event.feePrompt
            (u64sub s.to_spend (u64add s.spending o.amount))) ∨
        (signing_txack env s (ackOut o)).2.head? =
          some (Event.finalPrompt t
            (u64sub s.to_spend (u64add s.spending o.amount))))) := by
  rw [stage3_dispatch env s o c hs hst hcl,
    stage3cont_last env s o c hs hch hco hlast]
  have hfee : u64add s.spending o.amount + finaleFee s o = s.to_spend →
      u64add s.spending o.amount +
        u64sub s.to_spend (u64add s.spending o.amount) = s.to_spend := by
    simp [finaleFee]
  constructor
  · intro hover
    rw [if_pos hover]
    exact ⟨rfl, hs, hst⟩
  · intro hle
    have hcons : u64add s.spending o.amount +
        u64sub s.to_spend (u64add s.spending o.amount) = s.to_spend := by
      rw [u64sub_of_le (by omega) hts]
      omega
    refine ⟨?_, hcons, ?_⟩
    · rw [if_neg hle]
      by_cases hth : overThreshold s o
      · rw [if_pos hth]
        by_cases hcf : env.confirm_fee (finaleFee s o) = true
        · rw [if_pos hcf]
          by_cases hct : env.confirm_transaction (finaleTotal s o c)
              (finaleFee s o) = true
          · rw [if_pos hct]
            simp [countFail, isFailEv]
          · rw [if_neg hct]
            simp [countFail, isFailEv]
        · rw [if_neg hcf]
          simp [countFail, isFailEv]
      · rw [if_neg hth]
        by_cases hct : env.confirm_transaction (finaleTotal s o c)
            (finaleFee s o) = true
        · rw [if_pos hct]
          simp [countFail, isFailEv]
        · rw [if_neg hct]
          simp [countFail, isFailEv]
    · rw [if_neg hle]
      by_cases hth : overThreshold s o
      · rw [if_pos hth]
        refine ⟨0, Or.inl ?_⟩
        by_cases hcf : env.confirm_fee (finaleFee s o) = true
        · rw [if_pos hcf]
          by_cases hct : env.confirm_transaction (finaleTotal s o c)
              (finaleFee s o) = true
          · rw [if_pos hct]
            simp [finaleFee]
          · rw [if_neg hct]
            simp [finaleFee]
        · rw [if_neg hcf]
          simp [finaleFee]
      · rw [if_neg hth]
        refine ⟨finaleTotal s o c, Or.inr ?_⟩
        by_cases hct : env.confirm_transaction (finaleTotal s o c)
            (finaleFee s o) = true
        · rw [if_pos hct]
          simp [finaleFee]
        · rw [if_neg hct]
          simp [finaleFee]

/-- Witness for C6: the concrete S1 finale passes the funds check, emits
no NotEnoughFunds failure, and its fee satisfies the conservation
equation. -/
theorem c6_funds_check_and_conservation_witness :
    ¬s3fin.to_spend < u64add s3fin.spending out90k.amount ∧
    countFail (signing_txack env0 s3fin (ackOut out90k)).2
      FailureType.NotEnoughFunds "Not enough funds" = 0 ∧
    u64add s3fin.spending out90k.amount +
      u64sub s3fin.to_spend (u64add s3fin.spending out90k.amount) =
      s3fin.to_spend := by
  have h := (c6_funds_check_and_conservation env0 s3fin out90k false
    (by decide) (by decide) (by decide) (by decide) (by decide) (by decide)
    (by decide)).2 (by decide)
  exact ⟨by decide, h.1, h.2.1⟩

/-- C9: on a Phase-1 finale that passes the funds check, the
fee-over-threshold prompt fires exactly once when
`fee > tx_est_size_kb * coin.maxfee_kb`, and never when the fee is at or
below the threshold. -/
theorem c9_fee_threshold_prompt (env : Env) (s : SState)
    (o : TxOutputType) (c : Bool)
    (hs : s.signing = true) (hst : s.stage = Stage.r3Output)
    (hcl : classifyOutput env s.multisig_fp_set s.multisig_fp_mismatch
      s.multisig_fp o = ClassRes.ok c)
    (hch : c = true → s.change_spend = 0)
    (hco : 0 < (env.compile_output o (!c)).1)
    (hlast : ¬s.idx1 < u32pred s.outputs_count)
    (hno : ¬s.to_spend < u64add s.spending o.amount) :
    ((signing_txack env s (ackOut o)).2.filter Event.isFeePrompt).length =
      if overThreshold s o then 1 else 0 := by
  rw [stage3_dispatch env s o c hs hst hcl,
    stage3cont_last env s o c hs hch hco hlast, if_neg hno]
  by_cases hth : overThreshold s o
  · rw [if_pos hth, if_pos hth]
    by_cases hcf : env.confirm_fee (finaleFee s o) = true
    · rw [if_pos hcf]
      by_cases hct : env.confirm_transaction (finaleTotal s o c)
          (finaleFee s o) = true
      · rw [if_pos hct]
        simp [Event.isFeePrompt]
      · rw [if_neg hct]
        simp [Event.isFeePrompt]
    · rw [if_neg hcf]
      simp [Event.isFeePrompt]
  · rw [if_neg hth, if_neg hth]
    by_cases hct : env.confirm_transaction (finaleTotal s o c)
        (finaleFee s o) = true
    · rw [if_pos hct]
      simp [Event.isFeePrompt]
    · rw [if_neg hct]
      simp [Event.isFeePrompt]

/-- Witness for C9: under a low fee threshold the concrete finale prompts
exactly once. -/
theorem c9_fee_threshold_prompt_witness :
    overThreshold s3finB out90k ∧
    ((signing_txack env0 s3finB (ackOut out90k)).2.filter
      Event.isFeePrompt).length = 1 := by
  have h := c9_fee_threshold_prompt env0 s3finB out90k false
    (by decide) (by decide) (by decide) (by decide) (by decide) (by decide)
    (by decide)
  exact ⟨by decide, h.trans (by decide)⟩

/-! ### The Phase-1 input loop -/

theorem run_phase1_ins (env : Env) (ps : List (TxInputType × PrevTx)) :
    ∀ (s : SState) (f : Bool × Bool × List Nat),
      s.signing = true → s.stage = Stage.r1Input →
      s.idx1 + ps.length = s.inputs_count →
      s.inputs_count < U32 →
      ps ≠ [] →
      (∀ q ∈ ps, q.2.pins ≠ [] ∧ q.2.pouts ≠ [] ∧
        q.2.pins.length < U32 ∧ q.2.pouts.length < U32 ∧
        env.tx_hash (prevStruct q.2) = q.1.prev_hash) →
      fpFold env (s.multisig_fp_set, s.multisig_fp_mismatch, s.multisig_fp)
        (ps.map Prod.fst) = some f →
      (∃ inp2 tp2 idx2b,
        (run env s (ps.flatMap fun q => inputAcks q.1 q.2)).1 =
          { s with tc := s.tc ++ ps.map (fun q => Chunk.inp q.1),
                   to_spend := spendFold s.to_spend ps,
                   idx1 := 0, stage := Stage.r3Output,
                   multisig_fp_set := f.1, multisig_fp_mismatch := f.2.1,
                   multisig_fp := f.2.2,
                   input := inp2, tp := tp2, idx2 := idx2b }) ∧
      countFailures (run env s (ps.flatMap fun q => inputAcks q.1 q.2)).2
        = 0 := by
  induction ps with
  | nil => intro s f _ _ _ _ hne _ _; exact absurd rfl hne
  | cons q rest ih =>
    obtain ⟨i, p⟩ := q
    intro s f hs hst hidx hic _ hmem hff
    obtain ⟨hpi, hpo, hli, hlo, hth⟩ := hmem (i, p) (List.mem_cons_self _ _)
    simp only [List.map_cons, fpFold] at hff
    cases hfp1 : fpStep env s.multisig_fp_set s.multisig_fp_mismatch
        s.multisig_fp i with
    | none => rw [hfp1] at hff; exact absurd hff (by simp)
    | some f1 =>
      rw [hfp1] at hff
      have e1 := stage1_step env s i f1 hs hst hfp1
      set S1 : SState :=
        { s with multisig_fp_set := f1.1, multisig_fp_mismatch := f1.2.1,
                 multisig_fp := f1.2.2,
                 tc := s.tc ++ [Chunk.inp i], input := i,
                 stage := Stage.r2PrevMeta } with hS1
      obtain ⟨hwok, _⟩ := run_prev_walk env p S1
        (by rw [hS1]; exact hs) (by rw [hS1]) hpi hpo hli hlo
      have hok : env.tx_hash (prevStruct p) = S1.input.prev_hash := by
        rw [hS1]; exact hth
      obtain ⟨hw1, hw2⟩ := hwok hok
      have hsplit : run env s (((i, p) :: rest).flatMap fun q =>
          inputAcks q.1 q.2) =
          ((run env (run env S1 (prevTxAcks p)).1
              (rest.flatMap fun q => inputAcks q.1 q.2)).1,
            ([Event.txRequest RequestType.TXMETA none (some i.prev_hash) none]
              ++ (run env S1 (prevTxAcks p)).2) ++
              (run env (run env S1 (prevTxAcks p)).1
                (rest.flatMap fun q => inputAcks q.1 q.2)).2) := by
        show run env s ((ackIn i :: prevTxAcks p) ++
          rest.flatMap fun q => inputAcks q.1 q.2) = _
        rw [List.cons_append, run_cons, e1, run_append]
        rfl
      cases rest with
      | nil =>
        have hlast : ¬S1.idx1 < u32pred S1.inputs_count := by
          rw [hS1]
          show ¬s.idx1 < u32pred s.inputs_count
          rw [u32pred_of_pos (by simp at hidx; omega) hic]
          simp only [List.length_cons, List.length_nil] at hidx
          omega
        rw [if_neg hlast] at hw1
        have hf1 : f1 = f := by
          simpa [fpFold] using hff
        subst hf1
        constructor
        · refine ⟨i, prevStruct p, p.pouts.length - 1, ?_⟩
          rw [hsplit]
          show (run env (run env S1 (prevTxAcks p)).1 []).1 = _
          rw [run_nil, hw1, hS1]
          simp [spendFold]
        · rw [hsplit]
          show countFailures (_ ++ (run env _ []).2) = 0
          rw [run_nil]
          simp only [countFailures, List.filter_append, List.length_append,
            List.filter, Event.isFailure, List.append_nil]
          simpa [countFailures] using hw2
      | cons q2 rest2 =>
        have hmore : S1.idx1 < u32pred S1.inputs_count := by
          rw [hS1]
          show s.idx1 < u32pred s.inputs_count
          rw [u32pred_of_pos (by simp at hidx; omega) hic]
          simp only [List.length_cons] at hidx
          omega
        rw [if_pos hmore] at hw1
        obtain ⟨hexi, hcnt⟩ := ih
          { S1 with tp := prevStruct p,
                    to_spend := prevAdd S1.input.prev_index 0 S1.to_spend
                      p.pouts,
                    idx2 := p.pouts.length - 1,
                    idx1 := S1.idx1 + 1, stage := Stage.r1Input }
          f (by rw [hS1]; exact hs) rfl
          (by
            rw [hS1]
            show s.idx1 + 1 + (q2 :: rest2).length = s.inputs_count
            simp only [List.length_cons] at hidx ⊢
            omega)
          (by rw [hS1]; exact hic)
          (by simp)
          (fun q hq => hmem q (List.mem_cons_of_mem _ hq))
          (by rw [hS1]; exact hff)
        constructor
        · obtain ⟨inp2, tp2, idx2b, hfin⟩ := hexi
          refine ⟨inp2, tp2, idx2b, ?_⟩
          rw [hsplit, hw1]
          rw [hfin, hS1]
          simp [spendFold]
        · rw [hsplit, hw1]
          simp only [countFailures, List.filter_append, List.length_append,
            List.filter, Event.isFailure] at hw2 hcnt ⊢
          simp [countFailures] at hw2 hcnt ⊢
          exact ⟨hw2, hcnt⟩

/-! ### The Phase-1 output loop -/

theorem stage3cont_cont (env : Env) (s : SState) (o : TxOutputType) (c : Bool)
    (hch : c = true → s.change_spend = 0)
    (hco : 0 < (env.compile_output o (!c)).1)
    (hmore : s.idx1 < u32pred s.outputs_count) :
    stage3cont env s o c =
      ({ s with change_spend := if c then o.amount else s.change_spend,
                spending := u64add s.spending o.amount,
                tc := s.tc ++ [Chunk.outb (env.compile_output o (!c)).2],
                idx1 := s.idx1 + 1 },
        [Event.txRequest RequestType.TXOUTPUT (some (s.idx1 + 1))
          none none]) := by
  have hneg : ¬(env.compile_output o (!c)).1 < 0 := by omega
  have hzer : ¬(env.compile_output o (!c)).1 = 0 := by omega
  cases c with
  | true =>
    simp only [Bool.not_true] at hneg hzer ⊢
    simp [stage3cont, hch rfl, hneg, hzer, hmore]
  | false =>
    simp only [Bool.not_false] at hneg hzer ⊢
    simp [stage3cont, hneg, hzer, hmore]

theorem changeOk_cons_true {ch : TxOutputType → Bool} {cs : Nat}
    {o : TxOutputType} {rest : List TxOutputType}
    (h : changeOk ch cs (o :: rest) = true) (hc : ch o = true) :
    cs = 0 ∧ changeOk ch o.amount rest = true := by
  simp only [changeOk, hc, if_true] at h
  simp only [Bool.and_eq_true, beq_iff_eq] at h
  exact ⟨h.1, h.2⟩

theorem changeOk_cons_false {ch : TxOutputType → Bool} {cs : Nat}
    {o : TxOutputType} {rest : List TxOutputType}
    (h : changeOk ch cs (o :: rest) = true) (hc : ch o = false) :
    changeOk ch cs rest = true := by
  simpa only [changeOk, hc, Bool.false_eq_true, if_false] using h

theorem run_phase1_outs (env : Env) (os : List TxOutputType)
    (ch : TxOutputType → Bool) :
    ∀ s : SState, s.signing = true → s.stage = Stage.r3Output →
      s.idx1 + os.length ≤ u32pred s.outputs_count →
      (∀ o ∈ os, classifyOutput env s.multisig_fp_set s.multisig_fp_mismatch
        s.multisig_fp o = ClassRes.ok (ch o)) →
      (∀ o ∈ os, 0 < (env.compile_output o (!ch o)).1) →
      changeOk ch s.change_spend os = true →
      (run env s (os.map ackOut)).1 =
        { s with change_spend := changeFold ch s.change_spend os,
                 spending := spendOutsFold s.spending os,
                 tc := s.tc ++ (binsOf1 env ch os).map Chunk.outb,
                 idx1 := s.idx1 + os.length } ∧
      countFailures (run env s (os.map ackOut)).2 = 0 := by
  induction os with
  | nil =>
    intro s _ _ _ _ _ _
    constructor
    · rw [List.map_nil, run_nil]
      simp [changeFold, spendOutsFold, binsOf1]
    · rw [List.map_nil, run_nil]
      rfl
  | cons o rest ih =>
    intro s hs hst hidx hcl hco hcg
    have hcl0 := hcl o (List.mem_cons_self _ _)
    have hco0 := hco o (List.mem_cons_self _ _)
    have hmore : s.idx1 < u32pred s.outputs_count := by
      simp only [List.length_cons] at hidx
      omega
    have hch0 : ch o = true → s.change_spend = 0 := by
      intro hc
      exact (changeOk_cons_true hcg hc).1
    have estep : signing_txack env s (ackOut o) =
        ({ s with change_spend := if ch o then o.amount else s.change_spend,
                  spending := u64add s.spending o.amount,
                  tc := s.tc ++ [Chunk.outb (env.compile_output o (!ch o)).2],
                  idx1 := s.idx1 + 1 },
          [Event.txRequest RequestType.TXOUTPUT (some (s.idx1 + 1))
            none none]) := by
      rw [stage3_dispatch env s o (ch o) hs hst hcl0]
      exact stage3cont_cont env s o (ch o) hch0 hco0 hmore
    have hcg2 : changeOk ch (if ch o then o.amount else s.change_spend)
        rest = true := by
      cases hc : ch o with
      | true =>
        simp only [hc, if_true]
        exact (changeOk_cons_true hcg hc).2
      | false =>
        simp only [hc, Bool.false_eq_true, if_false]
        exact changeOk_cons_false hcg hc
    obtain ⟨h1, h2⟩ := ih
      { s with change_spend := if ch o then o.amount else s.change_spend,
               spending := u64add s.spending o.amount,
               tc := s.tc ++ [Chunk.outb (env.compile_output o (!ch o)).2],
               idx1 := s.idx1 + 1 }
      hs hst
      (by
        show s.idx1 + 1 + rest.length ≤ u32pred s.outputs_count
        simp only [List.length_cons] at hidx
        omega)
      (fun o2 ho2 => hcl o2 (List.mem_cons_of_mem _ ho2))
      (fun o2 ho2 => hco o2 (List.mem_cons_of_mem _ ho2))
      hcg2
    rw [List.map_cons, run_cons, estep]
    constructor
    · rw [h1]
      show _ = ({ s with
        change_spend := changeFold ch s.change_spend (o :: rest),
        spending := spendOutsFold s.spending (o :: rest),
        tc := s.tc ++ (binsOf1 env ch (o :: rest)).map Chunk.outb,
        idx1 := s.idx1 + (o :: rest).length } : SState)
      simp only [changeFold, spendOutsFold, binsOf1, List.foldl_cons,
        List.map_cons, List.length_cons]
      simp [Nat.add_assoc, Nat.add_comm 1 rest.length]
    · show countFailures ([Event.txRequest RequestType.TXOUTPUT
        (some (s.idx1 + 1)) none none] ++ _) = 0
      simp only [countFailures, List.filter_append, List.length_append,
        List.filter, Event.isFailure]
      simpa [countFailures] using h2

/-! ### The Phase-2 input walk -/

theorem targetScript_spec (env : Env) (c : CoinType) (r : HDNode)
    (i : TxInputType) (nd : HDNode) (ss : List Nat)
    (h : targetScript env c r i = some (nd, ss)) :
    env.hdnode_ckd r i.address_n = some nd ∧ ¬ss.length = 0 ∧
    ((i.script_type = InputScriptType.SPENDMULTISIG ∧
        i.has_multisig = true ∧ ss = env.compile_script_multisig i.multisig) ∨
      (¬i.script_type = InputScriptType.SPENDMULTISIG ∧
        ss = env.compile_script_sig c.address_type
          (env.pubkeyhash nd.public_key))) := by
  unfold targetScript at h
  cases hd : env.hdnode_ckd r i.address_n with
  | none => rw [hd] at h; exact absurd h (by simp)
  | some nd0 =>
    rw [hd] at h
    dsimp only [] at h
    by_cases hty : i.script_type = InputScriptType.SPENDMULTISIG
    · rw [if_pos hty] at h
      by_cases hms : i.has_multisig = true
      · rw [if_neg (by simp [hms])] at h
        by_cases hz : (env.compile_script_multisig i.multisig).length = 0
        · rw [if_pos hz] at h; exact absurd h (by simp)
        · rw [if_neg hz] at h
          obtain ⟨h1, h2⟩ := Prod.mk.injEq .. ▸ Option.some.inj h
          subst h1 h2
          exact ⟨rfl, hz, Or.inl ⟨hty, hms, rfl⟩⟩
      · rw [if_pos (by simpa using hms)] at h
        exact absurd h (by simp)
    · rw [if_neg hty] at h
      by_cases hz : (env.compile_script_sig c.address_type
          (env.pubkeyhash nd0.public_key)).length = 0
      · rw [if_pos hz] at h; exact absurd h (by simp)
      · rw [if_neg hz] at h
        obtain ⟨h1, h2⟩ := Prod.mk.injEq .. ▸ Option.some.inj h
        subst h1 h2
        exact ⟨rfl, hz, Or.inr ⟨hty, rfl⟩⟩

theorem stage4in_nt (env : Env) (s : SState) (i : TxInputType)
    (hs : s.signing = true) (hst : s.stage = Stage.r4Input)
    (hk0 : ¬s.idx2 = 0) (hkt : ¬s.idx2 = s.idx1)
    (hfed : s.ti.fed_ins.length < s.ti.inputs_len) :
    signing_txack env s (ackIn i) =
      (if s.idx2 < u32pred s.inputs_count then
        ({ s with tc := s.tc ++ [Chunk.inp i],
                  ti := { s.ti with fed_ins := s.ti.fed_ins ++
                    [{ i with script_sig := [] }] },
                  idx2 := s.idx2 + 1 },
          [Event.txRequest RequestType.TXINPUT (some (s.idx2 + 1)) none none])
      else
        ({ s with tc := s.tc ++ [Chunk.inp i],
                  ti := { s.ti with fed_ins := s.ti.fed_ins ++
                    [{ i with script_sig := [] }] },
                  idx2 := 0, stage := Stage.r4Output },
          [Event.txRequest RequestType.TXOUTPUT (some 0) none none])) := by
  have hser : tx_serialize_input_hash s.ti { i with script_sig := [] } =
      some { s.ti with fed_ins := s.ti.fed_ins ++
        [{ i with script_sig := [] }] } := by
    simp [tx_serialize_input_hash, hfed]
  by_cases hc : s.idx2 < u32pred s.inputs_count
  · rw [if_pos hc]
    simp [signing_txack, hs, hst, stage4in, hk0, hkt, stage4inTail, hser, hc]
  · rw [if_neg hc]
    simp [signing_txack, hs, hst, stage4in, hk0, hkt, stage4inTail, hser, hc]

theorem stage4in_tg (env : Env) (s : SState) (i : TxInputType)
    (nd : HDNode) (ss : List Nat)
    (hs : s.signing = true) (hst : s.stage = Stage.r4Input)
    (hk0 : ¬s.idx2 = 0) (hkt : s.idx2 = s.idx1)
    (htg : targetScript env s.coin s.root i = some (nd, ss))
    (hfed : s.ti.fed_ins.length < s.ti.inputs_len) :
    signing_txack env s (ackIn i) =
      (if s.idx2 < u32pred s.inputs_count then
        ({ s with tc := s.tc ++ [Chunk.inp i], input := i, node := nd,
                  privkey := nd.private_key, pubkey := nd.public_key,
                  ti := { s.ti with fed_ins := s.ti.fed_ins ++
                    [{ i with script_sig := ss }] },
                  idx2 := s.idx2 + 1 },
          [Event.txRequest RequestType.TXINPUT (some (s.idx2 + 1)) none none])
      else
        ({ s with tc := s.tc ++ [Chunk.inp i], input := i, node := nd,
                  privkey := nd.private_key, pubkey := nd.public_key,
                  ti := { s.ti with fed_ins := s.ti.fed_ins ++
                    [{ i with script_sig := ss }] },
                  idx2 := 0, stage := Stage.r4Output },
          [Event.txRequest RequestType.TXOUTPUT (some 0) none none])) := by
  obtain ⟨hd, hz, hbr⟩ := targetScript_spec env s.coin s.root i nd ss htg
  have hser : tx_serialize_input_hash s.ti { i with script_sig := ss } =
      some { s.ti with fed_ins := s.ti.fed_ins ++
        [{ i with script_sig := ss }] } := by
    simp [tx_serialize_input_hash, hfed]
  have hk0' : ¬s.idx1 = 0 := by rw [← hkt]; exact hk0
  have hc2 : s.idx2 < u32pred s.inputs_count ↔
      s.idx1 < u32pred s.inputs_count := by rw [hkt]
  rcases hbr with ⟨hty, hms, hss⟩ | ⟨hty, hss⟩ <;>
    by_cases hc : s.idx2 < u32pred s.inputs_count
  · rw [if_pos hc]
    rw [hc2] at hc
    simp only [hty, hms] at hser
    simp [signing_txack, hs, hst, stage4in, hk0, hk0', hkt, hd, hty, hms,
      stage4inTarget, ← hss, hz, stage4inTail, hser, hc]
  · rw [if_neg hc]
    rw [hc2] at hc
    simp only [hty, hms] at hser
    simp [signing_txack, hs, hst, stage4in, hk0, hk0', hkt, hd, hty, hms,
      stage4inTarget, ← hss, hz, stage4inTail, hser, hc]
  · rw [if_pos hc]
    rw [hc2] at hc
    simp [signing_txack, hs, hst, stage4in, hk0, hk0', hkt, hd, hty,
      stage4inTarget, ← hss, hz, stage4inTail, hser, hc]
  · rw [if_neg hc]
    rw [hc2] at hc
    simp [signing_txack, hs, hst, stage4in, hk0, hk0', hkt, hd, hty,
      stage4inTarget, ← hss, hz, stage4inTail, hser, hc]

theorem stage4in_reset_tg (env : Env) (s : SState) (i : TxInputType)
    (nd : HDNode) (ss : List Nat)
    (hs : s.signing = true) (hst : s.stage = Stage.r4Input)
    (hk0 : s.idx2 = 0) (ht0 : s.idx1 = 0)
    (htg : targetScript env s.coin s.root i = some (nd, ss))
    (hic : 0 < s.inputs_count) :
    signing_txack env s (ackIn i) =
      (if (0 : Nat) < u32pred s.inputs_count then
        ({ s with tc := seedChunks s.inputs_count s.outputs_count ++
                    [Chunk.inp i],
                  ti := { tx_init s.inputs_count s.outputs_count
                      version_const lock_time_const true with
                    fed_ins := [{ i with script_sig := ss }] },
                  input := i, node := nd,
                  privkey := nd.private_key, pubkey := nd.public_key,
                  idx2 := 1 },
          [Event.txRequest RequestType.TXINPUT (some 1) none none])
      else
        ({ s with tc := seedChunks s.inputs_count s.outputs_count ++
                    [Chunk.inp i],
                  ti := { tx_init s.inputs_count s.outputs_count
                      version_const lock_time_const true with
                    fed_ins := [{ i with script_sig := ss }] },
                  input := i, node := nd,
                  privkey := nd.private_key, pubkey := nd.public_key,
                  idx2 := 0, stage := Stage.r4Output },
          [Event.txRequest RequestType.TXOUTPUT (some 0) none none])) := by
  obtain ⟨hd, hz, hbr⟩ := targetScript_spec env s.coin s.root i nd ss htg
  have hser : tx_serialize_input_hash (tx_init s.inputs_count
      s.outputs_count version_const lock_time_const true)
      { i with script_sig := ss } =
      some { tx_init s.inputs_count s.outputs_count version_const
          lock_time_const true with
        fed_ins := [{ i with script_sig := ss }] } := by
    simp [tx_serialize_input_hash, tx_init, hic]
  rcases hbr with ⟨hty, hms, hss⟩ | ⟨hty, hss⟩ <;>
    by_cases hc : (0 : Nat) < u32pred s.inputs_count
  · rw [if_pos hc]
    simp only [hty, hms] at hser
    simp [signing_txack, hs, hst, stage4in, hk0, ht0, hd, hty, hms,
      stage4inTarget, ← hss, hz, stage4inTail, hser, hc]
  · rw [if_neg hc]
    simp only [hty, hms] at hser
    simp [signing_txack, hs, hst, stage4in, hk0, ht0, hd, hty, hms,
      stage4inTarget, ← hss, hz, stage4inTail, hser, hc]
  · rw [if_pos hc]
    simp [signing_txack, hs, hst, stage4in, hk0, ht0, hd, hty,
      stage4inTarget, ← hss, hz, stage4inTail, hser, hc]
  · rw [if_neg hc]
    simp [signing_txack, hs, hst, stage4in, hk0, ht0, hd, hty,
      stage4inTarget, ← hss, hz, stage4inTail, hser, hc]

theorem stage4in_reset_nt (env : Env) (s : SState) (i : TxInputType)
    (hs : s.signing = true) (hst : s.stage = Stage.r4Input)
    (hk0 : s.idx2 = 0) (ht0 : ¬s.idx1 = 0)
    (hic : 0 < s.inputs_count) :
    signing_txack env s (ackIn i) =
      (if (0 : Nat) < u32pred s.inputs_count then
        ({ s with tc := seedChunks s.inputs_count s.outputs_count ++
                    [Chunk.inp i],
                  ti := { tx_init s.inputs_count s.outputs_count
                      version_const lock_time_const true with
                    fed_ins := [{ i with script_sig := [] }] },
                  privkey := List.replicate 32 0,
                  pubkey := List.replicate 33 0,
                  idx2 := 1 },
          [Event.txRequest RequestType.TXINPUT (some 1) none none])
      else
        ({ s with tc := seedChunks s.inputs_count s.outputs_count ++
                    [Chunk.inp i],
                  ti := { tx_init s.inputs_count s.outputs_count
                      version_const lock_time_const true with
                    fed_ins := [{ i with script_sig := [] }] },
                  privkey := List.replicate 32 0,
                  pubkey := List.replicate 33 0,
                  idx2 := 0, stage := Stage.r4Output },
          [Event.txRequest RequestType.TXOUTPUT (some 0) none none])) := by
  have hser : tx_serialize_input_hash (tx_init s.inputs_count
      s.outputs_count version_const lock_time_const true)
      { i with script_sig := [] } =
      some { tx_init s.inputs_count s.outputs_count version_const
          lock_time_const true with
        fed_ins := [{ i with script_sig := [] }] } := by
    simp [tx_serialize_input_hash, tx_init, hic]
  have hne : ¬(0 : Nat) = s.idx1 := fun h => ht0 h.symm
  by_cases hc : (0 : Nat) < u32pred s.inputs_count
  · rw [if_pos hc]
    simp [signing_txack, hs, hst, stage4in, hk0, hne, stage4inTail,
      hser, hc]
  · rw [if_neg hc]
    simp [signing_txack, hs, hst, stage4in, hk0, hne, stage4inTail,
      hser, hc]

theorem run_p2_ins (env : Env) (l : List TxInputType) (t : Nat)
    (nd : HDNode) (ss : List Nat) :
    ∀ s : SState, s.signing = true → s.stage = Stage.r4Input →
      1 ≤ s.idx2 → s.idx1 = t → t < s.inputs_count →
      s.idx2 + l.length = s.inputs_count → s.inputs_count < U32 →
      s.ti.inputs_len = s.inputs_count →
      s.ti.fed_ins.length = s.idx2 →
      l ≠ [] →
      (∀ j : Nat, j < l.length → s.idx2 + j = t →
        targetScript env s.coin s.root (l.getD j zeroInput) = some (nd, ss)) →
      ∃ ti2 pk pb nd2 inp2,
        (run env s (l.map ackIn)).1 =
          { s with tc := s.tc ++ l.map Chunk.inp, ti := ti2,
                   privkey := pk, pubkey := pb, node := nd2, input := inp2,
                   idx2 := 0, stage := Stage.r4Output } ∧
        ti2.inputs_len = s.ti.inputs_len ∧
        ti2.outputs_len = s.ti.outputs_len ∧
        ti2.fed_ins.length = s.ti.fed_ins.length + l.length ∧
        ti2.fed_outs = s.ti.fed_outs ∧
        (s.idx2 ≤ t → inp2 = l.getD (t - s.idx2) zeroInput) ∧
        (t < s.idx2 → inp2 = s.input) ∧
        countFailures (run env s (l.map ackIn)).2 = 0 := by
  induction l with
  | nil => intro s _ _ _ _ _ _ _ _ _ hne _; exact absurd rfl hne
  | cons i rest ih =>
    intro s hs hst hk1 hi1 ht hsum hic hlen hfedk _ htg
    have hfed : s.ti.fed_ins.length < s.ti.inputs_len := by
      rw [hfedk, hlen]
      simp only [List.length_cons] at hsum
      omega
    cases rest with
    | nil =>
      have hlast : ¬s.idx2 < u32pred s.inputs_count := by
        rw [u32pred_of_pos (by omega) hic]
        simp only [List.length_cons, List.length_nil] at hsum
        omega
      by_cases hkt : s.idx2 = s.idx1
      · have htgt : targetScript env s.coin s.root i = some (nd, ss) := by
          have := htg 0 (by simp) (by omega)
          simpa using this
        have hk0 : ¬s.idx2 = 0 := by omega
        rw [List.map_cons, List.map_nil, run_cons,
          stage4in_tg env s i nd ss hs hst hk0 hkt htgt hfed,
          if_neg hlast]
        refine ⟨{ s.ti with fed_ins := s.ti.fed_ins ++
            [{ i with script_sig := ss }] }, nd.private_key, nd.public_key,
          nd, i, ?_, rfl, rfl, by simp, rfl, ?_, ?_, rfl⟩
        · rw [run_nil]
          rfl
        · intro hle
          have : t = s.idx2 := by omega
          simp [← this, Nat.sub_self]
        · intro hlt
          exact absurd (hkt.trans hi1) (by omega)
      · have htk : t < s.idx2 := by
          simp only [List.length_cons, List.length_nil] at hsum
          have : ¬s.idx2 = t := fun h => hkt (h.trans hi1.symm)
          omega
        have hk0 : ¬s.idx2 = 0 := by omega
        rw [List.map_cons, List.map_nil, run_cons,
          stage4in_nt env s i hs hst hk0 hkt hfed, if_neg hlast]
        refine ⟨{ s.ti with fed_ins := s.ti.fed_ins ++
            [{ i with script_sig := [] }] }, s.privkey, s.pubkey, s.node,
          s.input, ?_, rfl, rfl, by simp, rfl, ?_, fun _ => rfl, rfl⟩
        · rw [run_nil]
          rfl
        · intro hle
          omega
    | cons r rs =>
      have hmore : s.idx2 < u32pred s.inputs_count := by
        rw [u32pred_of_pos (by omega) hic]
        simp only [List.length_cons] at hsum
        omega
      by_cases hkt : s.idx2 = s.idx1
      · have htgt : targetScript env s.coin s.root i = some (nd, ss) := by
          have := htg 0 (by simp) (by omega)
          simpa using this
        have hk0 : ¬s.idx2 = 0 := by omega
        rw [List.map_cons, run_cons,
          stage4in_tg env s i nd ss hs hst hk0 hkt htgt hfed,
          if_pos hmore]
        obtain ⟨ti2, pk, pb, nd2, inp2, hrun, hl1, hl2, hl3, hl4, hle,
          hgt, hcnt⟩ := ih
          { s with tc := s.tc ++ [Chunk.inp i], input := i, node := nd,
                   privkey := nd.private_key, pubkey := nd.public_key,
                   ti := { s.ti with fed_ins := s.ti.fed_ins ++
                     [{ i with script_sig := ss }] },
                   idx2 := s.idx2 + 1 }
          hs hst (by show 1 ≤ s.idx2 + 1; omega) hi1 ht
          (by
            show s.idx2 + 1 + (r :: rs).length = s.inputs_count
            simp only [List.length_cons] at hsum ⊢
            omega)
          hic (by show s.ti.inputs_len = s.inputs_count; exact hlen)
          (by
            show (s.ti.fed_ins ++ [{ i with script_sig := ss }]).length =
              s.idx2 + 1
            simp [hfedk])
          (by simp)
          (fun j hj hjt => by
            have hjt2 : s.idx2 + 1 + j = t := hjt
            have := htg (j + 1) (by simpa using Nat.succ_lt_succ hj)
              (by omega)
            simpa using this)
        refine ⟨ti2, pk, pb, nd2, inp2, ?_, hl1, hl2, ?_, hl4, ?_, ?_,
          ?_⟩
        · rw [hrun]
          simp
        · rw [hl3]
          simp only [List.length_append, List.length_cons,
            List.length_nil]
          omega
        · intro _
          have h2 : t < s.idx2 + 1 := by omega
          have := hgt h2
          rw [this]
          have ht2 : t = s.idx2 := by omega
          simp [ht2, Nat.sub_self]
        · intro hlt
          exact absurd (hkt.trans hi1) (by omega)
        · show countFailures ([Event.txRequest RequestType.TXINPUT
            (some (s.idx2 + 1)) none none] ++ _) = 0
          simp only [countFailures, List.filter_append, List.length_append,
            List.filter, Event.isFailure]
          simpa [countFailures] using hcnt
      · have hk0 : ¬s.idx2 = 0 := by omega
        rw [List.map_cons, run_cons,
          stage4in_nt env s i hs hst hk0 hkt hfed, if_pos hmore]
        obtain ⟨ti2, pk, pb, nd2, inp2, hrun, hl1, hl2, hl3, hl4, hle,
          hgt, hcnt⟩ := ih
          { s with tc := s.tc ++ [Chunk.inp i],
                   ti := { s.ti with fed_ins := s.ti.fed_ins ++
                     [{ i with script_sig := [] }] },
                   idx2 := s.idx2 + 1 }
          hs hst (by show 1 ≤ s.idx2 + 1; omega) hi1 ht
          (by
            show s.idx2 + 1 + (r :: rs).length = s.inputs_count
            simp only [List.length_cons] at hsum ⊢
            omega)
          hic (by show s.ti.inputs_len = s.inputs_count; exact hlen)
          (by
            show (s.ti.fed_ins ++ [{ i with script_sig := [] }]).length =
              s.idx2 + 1
            simp [hfedk])
          (by simp)
          (fun j hj hjt => by
            have hjt2 : s.idx2 + 1 + j = t := hjt
            have := htg (j + 1) (by simpa using Nat.succ_lt_succ hj)
              (by omega)
            simpa using this)
        have hnt : ¬s.idx2 = t := fun h => hkt (h.trans hi1.symm)
        refine ⟨ti2, pk, pb, nd2, inp2, ?_, hl1, hl2, ?_, hl4, ?_, ?_,
          ?_⟩
        · rw [hrun]
          simp
        · rw [hl3]
          simp only [List.length_append, List.length_cons,
            List.length_nil]
          omega
        · intro hle2
          have hlt2 : s.idx2 < t := by omega
          have h3 : s.idx2 + 1 ≤ t := by omega
          have := hle h3
          rw [this]
          have : t - s.idx2 = (t - (s.idx2 + 1)) + 1 := by omega
          simp [this]
        · intro hlt2
          have h4 : t < s.idx2 + 1 := by omega
          have := hgt h4
          rw [this]
        · show countFailures ([Event.txRequest RequestType.TXINPUT
            (some (s.idx2 + 1)) none none] ++ _) = 0
          simp only [countFailures, List.filter_append, List.length_append,
            List.filter, Event.isFailure]
          simpa [countFailures] using hcnt

theorem run_p2_ins_all (env : Env) (l : List TxInputType) (t : Nat)
    (nd : HDNode) (ss : List Nat) (s : SState)
    (hs : s.signing = true) (hst : s.stage = Stage.r4Input)
    (hk0 : s.idx2 = 0) (hi1 : s.idx1 = t) (ht : t < s.inputs_count)
    (hsum : l.length = s.inputs_count) (hic : s.inputs_count < U32)
    (htgt : targetScript env s.coin s.root (l.getD t zeroInput) =
      some (nd, ss)) :
    ∃ ti2 pk pb nd2,
      (run env s (l.map ackIn)).1 =
        { s with tc := seedChunks s.inputs_count s.outputs_count ++
                   l.map Chunk.inp,
                 ti := ti2, privkey := pk, pubkey := pb, node := nd2,
                 input := l.getD t zeroInput,
                 idx2 := 0, stage := Stage.r4Output } ∧
      ti2.inputs_len = s.inputs_count ∧
      ti2.outputs_len = s.outputs_count ∧
      ti2.fed_ins.length = l.length ∧
      ti2.fed_outs = [] ∧
      countFailures (run env s (l.map ackIn)).2 = 0 := by
  cases l with
  | nil => exact absurd (hsum ▸ ht) (by simp)
  | cons i rest =>
    cases rest with
    | nil =>
      have h1 : s.inputs_count = 1 := by simpa using hsum.symm
      have ht0 : t = 0 := by omega
      subst ht0
      have hneg : ¬(0 : Nat) < u32pred s.inputs_count := by
        rw [u32pred_of_pos (by omega) hic, h1]
        simp
      rw [List.map_cons, List.map_nil, run_cons,
        stage4in_reset_tg env s i nd ss hs hst hk0 hi1 htgt (by omega),
        if_neg hneg]
      refine ⟨{ tx_init s.inputs_count s.outputs_count version_const
          lock_time_const true with
        fed_ins := [{ i with script_sig := ss }] }, nd.private_key,
        nd.public_key, nd, ?_, rfl, rfl, rfl, rfl, ?_⟩
      · rw [run_nil]
        rfl
      · rw [run_nil]
        rfl
    | cons r rs =>
      have hpos : (0 : Nat) < u32pred s.inputs_count := by
        rw [u32pred_of_pos (by omega) hic]
        simp only [List.length_cons] at hsum
        omega
      by_cases ht0 : t = 0
      · subst ht0
        rw [List.map_cons, run_cons,
          stage4in_reset_tg env s i nd ss hs hst hk0 hi1 htgt (by omega),
          if_pos hpos]
        obtain ⟨ti2, pk, pb, nd2, inp2, hrun, hl1, hl2, hl3, hl4, hle,
          hgt, hcnt⟩ := run_p2_ins env (r :: rs) 0 nd ss
          { s with tc := seedChunks s.inputs_count s.outputs_count ++
                     [Chunk.inp i],
                   ti := { tx_init s.inputs_count s.outputs_count
                       version_const lock_time_const true with
                     fed_ins := [{ i with script_sig := ss }] },
                   input := i, node := nd,
                   privkey := nd.private_key, pubkey := nd.public_key,
                   idx2 := 1 }
          hs hst (le_refl 1) hi1 ht
          (by
            show 1 + (r :: rs).length = s.inputs_count
            simp only [List.length_cons] at hsum ⊢
            omega)
          hic rfl rfl (by simp)
          (fun j _ hjt => by
            have hjt2 : 1 + j = 0 := hjt
            exact absurd hjt2 (by omega))
        have hinp : inp2 = i := hgt Nat.zero_lt_one
        refine ⟨ti2, pk, pb, nd2, ?_, ?_, ?_, ?_, ?_, ?_⟩
        · rw [hrun, hinp]
          simp [List.append_assoc]
        · exact hl1
        · exact hl2
        · rw [hl3]
          show [{ i with script_sig := ss }].length + (r :: rs).length =
            (i :: r :: rs).length
          simp only [List.length_cons, List.length_nil]
          omega
        · exact hl4
        · show countFailures ([Event.txRequest RequestType.TXINPUT
            (some 1) none none] ++ _) = 0
          simp only [countFailures, List.filter_append, List.length_append,
            List.filter, Event.isFailure]
          simpa [countFailures] using hcnt
      · rw [List.map_cons, run_cons,
          stage4in_reset_nt env s i hs hst hk0
            (by rw [hi1]; exact ht0) (by omega),
          if_pos hpos]
        obtain ⟨ti2, pk, pb, nd2, inp2, hrun, hl1, hl2, hl3, hl4, hle,
          hgt, hcnt⟩ := run_p2_ins env (r :: rs) t nd ss
          { s with tc := seedChunks s.inputs_count s.outputs_count ++
                     [Chunk.inp i],
                   ti := { tx_init s.inputs_count s.outputs_count
                       version_const lock_time_const true with
                     fed_ins := [{ i with script_sig := [] }] },
                   privkey := List.replicate 32 0,
                   pubkey := List.replicate 33 0,
                   idx2 := 1 }
          hs hst (le_refl 1) hi1 ht
          (by
            show 1 + (r :: rs).length = s.inputs_count
            simp only [List.length_cons] at hsum ⊢
            omega)
          hic rfl rfl (by simp)
          (fun j _ hjt => by
            have hjt2 : 1 + j = t := hjt
            have h5 : t = j + 1 := by omega
            have h7 := htgt
            rw [h5] at h7
            simpa using h7)
        have hinp : inp2 = (r :: rs).getD (t - 1) zeroInput :=
          hle (show (1 : Nat) ≤ t by omega)
        refine ⟨ti2, pk, pb, nd2, ?_, ?_, ?_, ?_, ?_, ?_⟩
        · rw [hrun, hinp]
          have h8 : t = (t - 1) + 1 := by omega
          rw [h8]
          simp [List.append_assoc]
        · exact hl1
        · exact hl2
        · rw [hl3]
          show [{ i with script_sig := [] }].length + (r :: rs).length =
            (i :: r :: rs).length
          simp only [List.length_cons, List.length_nil]
          omega
        · exact hl4
        · show countFailures ([Event.txRequest RequestType.TXINPUT
            (some 1) none none] ++ _) = 0
          simp only [countFailures, List.filter_append, List.length_append,
            List.filter, Event.isFailure]
          simpa [countFailures] using hcnt

/-- STAGE_REQUEST_4_OUTPUT on a non-final output: the compiled output is
hashed into the checksum and the signing stream and the next output is
requested. -/
theorem stage4out_cont (env : Env) (s : SState) (o : TxOutputType)
    (hs : s.signing = true) (hst : s.stage = Stage.r4Output)
    (hn : 0 < (env.compile_output o false).1)
    (hb1 : s.ti.inputs_len ≤ s.ti.fed_ins.length)
    (hb2 : s.ti.fed_outs.length < s.ti.outputs_len)
    (hc : s.idx2 < u32pred s.outputs_count) :
    signing_txack env s (ackOut o) =
      ({ s with tc := s.tc ++ [Chunk.outb (env.compile_output o false).2],
                ti := { s.ti with fed_outs := s.ti.fed_outs ++
                  [(env.compile_output o false).2] },
                idx2 := s.idx2 + 1 },
        [Event.txRequest RequestType.TXOUTPUT (some (s.idx2 + 1))
          none none]) := by
  have hser : tx_serialize_output_hash s.ti (env.compile_output o false).2 =
      some { s.ti with fed_outs := s.ti.fed_outs ++
        [(env.compile_output o false).2] } := by
    simp [tx_serialize_output_hash, hb1, hb2]
  have h1 : ¬(env.compile_output o false).1 < 0 := by omega
  have h2 : ¬(env.compile_output o false).1 = 0 := by omega
  simp [signing_txack, hs, hst, stage4out, h1, h2, hser, hc]

/-- STAGE_REQUEST_4_OUTPUT on the final output when the rebuilt checksum
matches `hash_check` and the held input is not multisig: the digest is
signed, the held input's scriptSig is rebuilt and its serialization is
emitted together with the DER signature. -/
theorem stage4out_last_ok (env : Env) (s : SState) (o : TxOutputType)
    (hs : s.signing = true) (hst : s.stage = Stage.r4Output)
    (hn : 0 < (env.compile_output o false).1)
    (hb1 : s.ti.inputs_len ≤ s.ti.fed_ins.length)
    (hb2 : s.ti.fed_outs.length < s.ti.outputs_len)
    (hc : ¬s.idx2 < u32pred s.outputs_count)
    (htc : s.tc ++ [Chunk.outb (env.compile_output o false).2] =
      s.hash_check)
    (hty : ¬s.input.script_type = InputScriptType.SPENDMULTISIG) :
    signing_txack env s (ackOut o) =
      (let co := env.compile_output o false
       let ti2 : TxStruct := { s.ti with
         fed_outs := s.ti.fed_outs ++ [co.2] }
       let der := env.sig_to_der (env.sign_digest s.privkey
         (env.tx_hash ti2))
       let inp2 : TxInputType := { s.input with
         script_sig := env.serialize_script_sig der s.pubkey }
       let r := tx_serialize_input_emit s.t_out inp2
       if s.idx1 < u32pred s.inputs_count then
         ({ s with tc := s.tc ++ [Chunk.outb co.2], ti := ti2,
                   input := inp2, t_out := r.1,
                   idx1 := s.idx1 + 1, idx2 := 0,
                   stage := Stage.r4Input },
           [Event.txRequest RequestType.TXINPUT (some 0) none
             (some ⟨some s.idx1, some der, some r.2⟩)])
       else
         ({ s with tc := s.tc ++ [Chunk.outb co.2], ti := ti2,
                   input := inp2, t_out := r.1,
                   idx1 := 0, stage := Stage.r5Output },
           [Event.txRequest RequestType.TXOUTPUT (some 0) none
             (some ⟨some s.idx1, some der, some r.2⟩)])) := by
  have hser : tx_serialize_output_hash s.ti (env.compile_output o false).2 =
      some { s.ti with fed_outs := s.ti.fed_outs ++
        [(env.compile_output o false).2] } := by
    simp [tx_serialize_output_hash, hb1, hb2]
  have h1 : ¬(env.compile_output o false).1 < 0 := by omega
  have h2 : ¬(env.compile_output o false).1 = 0 := by omega
  by_cases hidx : s.idx1 < u32pred s.inputs_count
  · rw [if_pos hidx]
    simp [signing_txack, hs, hst, stage4out, h1, h2, hser, hc, htc, hty,
      stage4outEmit, hidx]
  · rw [if_neg hidx]
    simp [signing_txack, hs, hst, stage4out, h1, h2, hser, hc, htc, hty,
      stage4outEmit, hidx]

/-- STAGE_REQUEST_4_OUTPUT on the final output when the rebuilt checksum
does not match `hash_check`: the session aborts with
Other/"Transaction has changed during signing". -/
theorem stage4out_last_changed (env : Env) (s : SState) (o : TxOutputType)
    (hs : s.signing = true) (hst : s.stage = Stage.r4Output)
    (hn : 0 < (env.compile_output o false).1)
    (hb1 : s.ti.inputs_len ≤ s.ti.fed_ins.length)
    (hb2 : s.ti.fed_outs.length < s.ti.outputs_len)
    (hc : ¬s.idx2 < u32pred s.outputs_count)
    (htc : ¬s.tc ++ [Chunk.outb (env.compile_output o false).2] =
      s.hash_check) :
    signing_txack env s (ackOut o) =
      ({ s with tc := s.tc ++ [Chunk.outb (env.compile_output o false).2],
                ti := { s.ti with fed_outs := s.ti.fed_outs ++
                  [(env.compile_output o false).2] },
                signing := false },
        [Event.failure FailureType.Other
          "Transaction has changed during signing", Event.goHome]) := by
  have hser : tx_serialize_output_hash s.ti (env.compile_output o false).2 =
      some { s.ti with fed_outs := s.ti.fed_outs ++
        [(env.compile_output o false).2] } := by
    simp [tx_serialize_output_hash, hb1, hb2]
  have h1 : ¬(env.compile_output o false).1 < 0 := by omega
  have h2 : ¬(env.compile_output o false).1 = 0 := by omega
  simp [signing_txack, hs, hst, stage4out, h1, h2, hser, hc, htc,
    failAbort, signing_abort]

/-- STAGE_REQUEST_4_OUTPUT on the final output, multisig held input,
checksum matching: the digest is signed, the signature is inserted into
the multisig script at the wallet's pubkey index, the rebuilt scriptSig
is serialized and emitted with the DER signature. -/
theorem stage4out_last_ok_ms (env : Env) (s : SState) (o : TxOutputType)
    (hs : s.signing = true) (hst : s.stage = Stage.r4Output)
    (hn : 0 < (env.compile_output o false).1)
    (hb1 : s.ti.inputs_len ≤ s.ti.fed_ins.length)
    (hb2 : s.ti.fed_outs.length < s.ti.outputs_len)
    (hc : ¬s.idx2 < u32pred s.outputs_count)
    (htc : s.tc ++ [Chunk.outb (env.compile_output o false).2] =
      s.hash_check)
    (hty : s.input.script_type = InputScriptType.SPENDMULTISIG)
    (hhm : s.input.has_multisig = true)
    (hpi : ¬env.pubkey_index s.input.multisig s.pubkey < 0)
    (hsl : ¬(env.serialize_script_multisig
      { s.input.multisig with
        signatures := s.input.multisig.signatures.set
          (env.pubkey_index s.input.multisig s.pubkey).toNat
          (env.sig_to_der (env.sign_digest s.privkey (env.tx_hash
            { s.ti with fed_outs := s.ti.fed_outs ++
              [(env.compile_output o false).2] }))) }).length = 0) :
    signing_txack env s (ackOut o) =
      (let co := env.compile_output o false
       let ti2 : TxStruct := { s.ti with
         fed_outs := s.ti.fed_outs ++ [co.2] }
       let der := env.sig_to_der (env.sign_digest s.privkey
         (env.tx_hash ti2))
       let ms2 : MultisigType := { s.input.multisig with
         signatures := s.input.multisig.signatures.set
           (env.pubkey_index s.input.multisig s.pubkey).toNat der }
       let inp2 : TxInputType := { s.input with
         multisig := ms2,
         script_sig := env.serialize_script_multisig ms2 }
       let r := tx_serialize_input_emit s.t_out inp2
       if s.idx1 < u32pred s.inputs_count then
         ({ s with tc := s.tc ++ [Chunk.outb co.2], ti := ti2,
                   input := inp2, t_out := r.1,
                   idx1 := s.idx1 + 1, idx2 := 0,
                   stage := Stage.r4Input },
           [Event.txRequest RequestType.TXINPUT (some 0) none
             (some ⟨some s.idx1, some der, some r.2⟩)])
       else
         ({ s with tc := s.tc ++ [Chunk.outb co.2], ti := ti2,
                   input := inp2, t_out := r.1,
                   idx1 := 0, stage := Stage.r5Output },
           [Event.txRequest RequestType.TXOUTPUT (some 0) none
             (some ⟨some s.idx1, some der, some r.2⟩)])) := by
  have hser : tx_serialize_output_hash s.ti (env.compile_output o false).2 =
      some { s.ti with fed_outs := s.ti.fed_outs ++
        [(env.compile_output o false).2] } := by
    simp [tx_serialize_output_hash, hb1, hb2]
  have h1 : ¬(env.compile_output o false).1 < 0 := by omega
  have h2 : ¬(env.compile_output o false).1 = 0 := by omega
  by_cases hidx : s.idx1 < u32pred s.inputs_count
  · rw [if_pos hidx]
    simp [signing_txack, hs, hst, stage4out, h1, h2, hser, hc, htc, hty,
      hhm, hpi, hsl, stage4outEmit, hidx]
  · rw [if_neg hidx]
    simp [signing_txack, hs, hst, stage4out, h1, h2, hser, hc, htc, hty,
      hhm, hpi, hsl, stage4outEmit, hidx]

/-- The non-final part of a Phase-2 output walk: each output is compiled
(no display), hashed into the checksum and serialized into the signing
stream, and the next output is requested; no failure occurs. -/
theorem run_p2_outs (env : Env) (os : List TxOutputType) :
    ∀ s : SState, s.signing = true → s.stage = Stage.r4Output →
      s.idx2 + os.length ≤ u32pred s.outputs_count →
      1 ≤ s.outputs_count → s.outputs_count < U32 →
      s.ti.inputs_len ≤ s.ti.fed_ins.length →
      s.ti.outputs_len = s.outputs_count →
      s.ti.fed_outs.length = s.idx2 →
      (∀ o ∈ os, 0 < (env.compile_output o false).1) →
      (run env s (os.map ackOut)).1 =
        { s with tc := s.tc ++ (binsOf2 env os).map Chunk.outb,
                 ti := { s.ti with
                   fed_outs := s.ti.fed_outs ++ binsOf2 env os },
                 idx2 := s.idx2 + os.length } ∧
      countFailures (run env s (os.map ackOut)).2 = 0 := by
  induction os with
  | nil =>
    intro s _ _ _ _ _ _ _ _ _
    constructor
    · rw [List.map_nil, run_nil]
      simp [binsOf2]
    · rw [List.map_nil, run_nil]
      rfl
  | cons o rest ih =>
    intro s hs hst hidx hoc1 hocU hb1 hol hfo hpos
    have hpos0 := hpos o (List.mem_cons_self _ _)
    have hmore : s.idx2 < u32pred s.outputs_count := by
      simp only [List.length_cons] at hidx
      omega
    have hb2 : s.ti.fed_outs.length < s.ti.outputs_len := by
      rw [hfo, hol]
      have := u32pred_of_pos hoc1 hocU
      omega
    have estep := stage4out_cont env s o hs hst hpos0 hb1 hb2 hmore
    obtain ⟨h1, h2⟩ := ih
      { s with tc := s.tc ++ [Chunk.outb (env.compile_output o false).2],
               ti := { s.ti with fed_outs := s.ti.fed_outs ++
                 [(env.compile_output o false).2] },
               idx2 := s.idx2 + 1 }
      hs hst
      (by
        show s.idx2 + 1 + rest.length ≤ u32pred s.outputs_count
        simp only [List.length_cons] at hidx
        omega)
      hoc1 hocU hb1 hol
      (by
        show (s.ti.fed_outs ++ [(env.compile_output o false).2]).length =
          s.idx2 + 1
        simp [hfo])
      (fun o2 ho2 => hpos o2 (List.mem_cons_of_mem _ ho2))
    rw [List.map_cons, run_cons, estep]
    constructor
    · rw [h1]
      show _ = ({ s with
        tc := s.tc ++ (binsOf2 env (o :: rest)).map Chunk.outb,
        ti := { s.ti with
          fed_outs := s.ti.fed_outs ++ binsOf2 env (o :: rest) },
        idx2 := s.idx2 + (o :: rest).length } : SState)
      simp only [binsOf2, List.map_cons, List.length_cons]
      simp [List.append_assoc, Nat.add_assoc, Nat.add_comm 1 rest.length]
    · show countFailures ([Event.txRequest RequestType.TXOUTPUT
        (some (s.idx2 + 1)) none none] ++ _) = 0
      simp only [countFailures, List.filter_append, List.length_append,
        List.filter, Event.isFailure]
      simpa [countFailures] using h2

/-- Failure counts add over concatenated event streams. -/
theorem countFailures_append (a b : List Event) :
    countFailures (a ++ b) = countFailures a + countFailures b := by
  simp [countFailures, List.filter_append]

/-- The checksum stream determines the hashed records: over the same
declared shape, two streams agree exactly when the input records and the
compiled output records agree (for input lists of equal length). -/
theorem checksumChunks_inj (ic oc : Nat) (ins ins2 : List TxInputType)
    (bins bins2 : List TxOutputBinType) (hl : ins2.length = ins.length) :
    checksumChunks ic oc ins2 bins2 = checksumChunks ic oc ins bins ↔
      (ins2 = ins ∧ bins2 = bins) := by
  constructor
  · intro h
    unfold checksumChunks at h
    rw [List.append_assoc, List.append_assoc] at h
    have h2 := List.append_cancel_left h
    obtain ⟨h4, h5⟩ := List.append_inj h2 (by simp [hl])
    constructor
    · exact List.map_injective_iff.mpr
        (fun a b hab => Chunk.inp.inj hab) h4
    · exact List.map_injective_iff.mpr
        (fun a b hab => Chunk.outb.inj hab) h5
  · rintro ⟨h1, h2⟩
    rw [h1, h2]

/-- The observable facts of the final step of a matching walk, for both
script kinds of the held input (assuming the environment finds the
wallet's pubkey in multisig scripts and serializes multisig scripts
nonempty): the session stays active, the finalised checksum is the stream
so far plus the last output, the declared shape, coin, root and
`hash_check` survive, no failure is emitted, the emitted request carries
a signature, and the walk advances to the next input walk (or to Phase 3
after the last input). -/
theorem stage4out_last_facts (env : Env) (s : SState) (o : TxOutputType)
    (hs : s.signing = true) (hst : s.stage = Stage.r4Output)
    (hn : 0 < (env.compile_output o false).1)
    (hb1 : s.ti.inputs_len ≤ s.ti.fed_ins.length)
    (hb2 : s.ti.fed_outs.length < s.ti.outputs_len)
    (hc : ¬s.idx2 < u32pred s.outputs_count)
    (htc : s.tc ++ [Chunk.outb (env.compile_output o false).2] =
      s.hash_check)
    (hhm : s.input.script_type = InputScriptType.SPENDMULTISIG →
      s.input.has_multisig = true)
    (hmsi : ∀ ms pk, 0 ≤ env.pubkey_index ms pk)
    (hmss : ∀ ms, ¬(env.serialize_script_multisig ms).length = 0) :
    (signing_txack env s (ackOut o)).1.signing = s.signing ∧
    (signing_txack env s (ackOut o)).1.tc =
      s.tc ++ [Chunk.outb (env.compile_output o false).2] ∧
    (signing_txack env s (ackOut o)).1.hash_check = s.hash_check ∧
    (signing_txack env s (ackOut o)).1.inputs_count = s.inputs_count ∧
    (signing_txack env s (ackOut o)).1.outputs_count = s.outputs_count ∧
    (signing_txack env s (ackOut o)).1.coin = s.coin ∧
    (signing_txack env s (ackOut o)).1.root = s.root ∧
    countFailures (signing_txack env s (ackOut o)).2 = 0 ∧
    (∃ e ∈ (signing_txack env s (ackOut o)).2,
      Event.hasSignature e = true) ∧
    (s.idx1 < u32pred s.inputs_count →
      (signing_txack env s (ackOut o)).1.stage = Stage.r4Input ∧
      (signing_txack env s (ackOut o)).1.idx1 = s.idx1 + 1 ∧
      (signing_txack env s (ackOut o)).1.idx2 = 0) ∧
    (¬s.idx1 < u32pred s.inputs_count →
      (signing_txack env s (ackOut o)).1.stage = Stage.r5Output) := by
  by_cases hsty : s.input.script_type = InputScriptType.SPENDMULTISIG
  · have hpi : ¬env.pubkey_index s.input.multisig s.pubkey < 0 := by
      have := hmsi s.input.multisig s.pubkey
      omega
    have he := stage4out_last_ok_ms env s o hs hst hn hb1 hb2 hc htc
      hsty (hhm hsty) hpi (hmss _)
    by_cases hil : s.idx1 < u32pred s.inputs_count
    · simp only [if_pos hil] at he
      rw [he]
      exact ⟨rfl, rfl, rfl, rfl, rfl, rfl, rfl, rfl,
        ⟨_, List.Mem.head _, rfl⟩, fun _ => ⟨rfl, rfl, rfl⟩,
        fun h => absurd hil h⟩
    · simp only [if_neg hil] at he
      rw [he]
      exact ⟨rfl, rfl, rfl, rfl, rfl, rfl, rfl, rfl,
        ⟨_, List.Mem.head _, rfl⟩, fun h => absurd h hil, fun _ => rfl⟩
  · have he := stage4out_last_ok env s o hs hst hn hb1 hb2 hc htc hsty
    by_cases hil : s.idx1 < u32pred s.inputs_count
    · simp only [if_pos hil] at he
      rw [he]
      exact ⟨rfl, rfl, rfl, rfl, rfl, rfl, rfl, rfl,
        ⟨_, List.Mem.head _, rfl⟩, fun _ => ⟨rfl, rfl, rfl⟩,
        fun h => absurd hil h⟩
    · simp only [if_neg hil] at he
      rw [he]
      exact ⟨rfl, rfl, rfl, rfl, rfl, rfl, rfl, rfl,
        ⟨_, List.Mem.head _, rfl⟩, fun h => absurd h hil, fun _ => rfl⟩

/-- One complete Phase-2 signing walk targeting input `t` (all inputs,
then all outputs) from the start of the walk: the checksum stream is
rebuilt from scratch; if the finalised stream equals `hash_check` the
digest is signed and a signature request goes out with no failure, the
session staying active and advancing to the next walk (or to Phase 3);
otherwise the session aborts with
Other/"Transaction has changed during signing". -/
theorem run_p2_walk_at (env : Env) (ins2 : List TxInputType)
    (w : List TxOutputType) (wl : TxOutputType)
    (nd : HDNode) (ss : List Nat) (t : Nat) (s : SState)
    (hs : s.signing = true) (hst : s.stage = Stage.r4Input)
    (hk0 : s.idx2 = 0) (hi1 : s.idx1 = t)
    (ht : t < s.inputs_count)
    (hleni : ins2.length = s.inputs_count)
    (hic : s.inputs_count < U32)
    (hleno : w.length + 1 = s.outputs_count)
    (hocU : s.outputs_count < U32)
    (htgt : targetScript env s.coin s.root (ins2.getD t zeroInput) =
      some (nd, ss))
    (hmsi : ∀ ms pk, 0 ≤ env.pubkey_index ms pk)
    (hmss : ∀ ms, ¬(env.serialize_script_multisig ms).length = 0)
    (hpos : ∀ o ∈ w ++ [wl], 0 < (env.compile_output o false).1) :
    (checksumChunks s.inputs_count s.outputs_count ins2
        (binsOf2 env (w ++ [wl])) = s.hash_check →
      (run env s (walkAcks ins2 (w ++ [wl]))).1.tc = s.hash_check ∧
      (run env s (walkAcks ins2 (w ++ [wl]))).1.signing = true ∧
      countFailures (run env s (walkAcks ins2 (w ++ [wl]))).2 = 0 ∧
      (∃ e ∈ (run env s (walkAcks ins2 (w ++ [wl]))).2,
        Event.hasSignature e = true) ∧
      (run env s (walkAcks ins2 (w ++ [wl]))).1.hash_check =
        s.hash_check ∧
      (run env s (walkAcks ins2 (w ++ [wl]))).1.inputs_count =
        s.inputs_count ∧
      (run env s (walkAcks ins2 (w ++ [wl]))).1.outputs_count =
        s.outputs_count ∧
      (run env s (walkAcks ins2 (w ++ [wl]))).1.coin = s.coin ∧
      (run env s (walkAcks ins2 (w ++ [wl]))).1.root = s.root ∧
      (t + 1 < s.inputs_count →
        (run env s (walkAcks ins2 (w ++ [wl]))).1.stage =
          Stage.r4Input ∧
        (run env s (walkAcks ins2 (w ++ [wl]))).1.idx1 = t + 1 ∧
        (run env s (walkAcks ins2 (w ++ [wl]))).1.idx2 = 0) ∧
      (¬t + 1 < s.inputs_count →
        (run env s (walkAcks ins2 (w ++ [wl]))).1.stage =
          Stage.r5Output)) ∧
    (¬checksumChunks s.inputs_count s.outputs_count ins2
        (binsOf2 env (w ++ [wl])) = s.hash_check →
      (run env s (walkAcks ins2 (w ++ [wl]))).1.signing = false ∧
      ∃ pre, (run env s (walkAcks ins2 (w ++ [wl]))).2 =
        pre ++ [Event.failure FailureType.Other
          "Transaction has changed during signing", Event.goHome]) := by
  simp only [walkAcks, List.map_append, List.map_cons, List.map_nil]
  obtain ⟨ti2, pk, pb, nd2, hrun1, hl1, hl2, hl3, hl4, hcnt1⟩ :=
    run_p2_ins_all env ins2 t nd ss s hs hst hk0 hi1 ht hleni hic htgt
  set S4 : SState :=
    { s with tc := seedChunks s.inputs_count s.outputs_count ++
               ins2.map Chunk.inp,
             ti := ti2, privkey := pk, pubkey := pb, node := nd2,
             input := ins2.getD t zeroInput,
             idx2 := 0, stage := Stage.r4Output } with hS4
  have hoc1 : 1 ≤ s.outputs_count := by omega
  have hup : u32pred s.outputs_count = s.outputs_count - 1 :=
    u32pred_of_pos hoc1 hocU
  have hupi : u32pred s.inputs_count = s.inputs_count - 1 :=
    u32pred_of_pos (by omega) hic
  have hble : ti2.inputs_len ≤ ti2.fed_ins.length := by
    rw [hl1, hl3, hleni]
  obtain ⟨hrun2, hcnt2⟩ := run_p2_outs env w S4
    hs rfl
    (by
      show 0 + w.length ≤ u32pred s.outputs_count
      rw [hup]
      omega)
    hoc1 hocU hble
    (show ti2.outputs_len = s.outputs_count from hl2)
    (by
      show ti2.fed_outs.length = 0
      rw [hl4]
      rfl)
    (fun o ho => hpos o (List.mem_append_left _ ho))
  set S5 : SState :=
    { S4 with tc := S4.tc ++ (binsOf2 env w).map Chunk.outb,
              ti := { S4.ti with
                fed_outs := S4.ti.fed_outs ++ binsOf2 env w },
              idx2 := S4.idx2 + w.length } with hS5
  have hb2w : (ti2.fed_outs ++ binsOf2 env w).length < ti2.outputs_len := by
    rw [hl4, hl2]
    simp [binsOf2]
    omega
  have hcL : ¬S5.idx2 < u32pred S5.outputs_count := by
    show ¬0 + w.length < u32pred s.outputs_count
    rw [hup]
    omega
  have hposl : 0 < (env.compile_output wl false).1 :=
    hpos wl (List.mem_append_right _ (List.mem_singleton.mpr rfl))
  have htcEq : S5.tc ++ [Chunk.outb (env.compile_output wl false).2] =
      checksumChunks s.inputs_count s.outputs_count ins2
        (binsOf2 env (w ++ [wl])) := by
    show ((seedChunks s.inputs_count s.outputs_count ++
        ins2.map Chunk.inp) ++ (binsOf2 env w).map Chunk.outb) ++
        [Chunk.outb (env.compile_output wl false).2] = _
    simp [checksumChunks, binsOf2, List.append_assoc]
  have hhm : S5.input.script_type = InputScriptType.SPENDMULTISIG →
      S5.input.has_multisig = true := by
    obtain ⟨-, -, hbr⟩ :=
      targetScript_spec env s.coin s.root (ins2.getD t zeroInput) nd ss htgt
    exact fun hmty => hbr.elim (fun h => h.2.1)
      (fun h => absurd hmty h.1)
  have hA := run_append env (ins2.map ackIn)
    (w.map ackOut ++ [ackOut wl]) s
  rw [hrun1] at hA
  have hB := run_append env (w.map ackOut) [ackOut wl] S4
  rw [hrun2] at hB
  have hC : run env S5 [ackOut wl] =
      ((signing_txack env S5 (ackOut wl)).1,
        (signing_txack env S5 (ackOut wl)).2 ++ []) := by
    rw [run_cons, run_nil]
  rw [hB, hC] at hA
  constructor
  · intro hEq
    have htcm : S5.tc ++ [Chunk.outb (env.compile_output wl false).2] =
        S5.hash_check := by
      rw [htcEq]
      exact hEq
    obtain ⟨hf1, hf2, hf3, hf4, hf5, hf6, hf7, hf8,
      ⟨e, he, hesig⟩, hf9, hf10⟩ :=
      stage4out_last_facts env S5 wl hs rfl hposl hble hb2w hcL htcm
        hhm hmsi hmss
    refine ⟨?_, ?_, ?_, ?_, ?_, ?_, ?_, ?_, ?_, ?_, ?_⟩
    · rw [hA]
      exact hf2.trans htcm
    · rw [hA]
      exact hf1.trans hs
    · rw [hA]
      simp only [countFailures_append, hcnt1, hcnt2, hf8]
      rfl
    · refine ⟨e, ?_, hesig⟩
      rw [hA]
      exact List.mem_append_right _ (List.mem_append_right _
        (List.mem_append_left _ he))
    · rw [hA]
      exact hf3
    · rw [hA]
      exact hf4
    · rw [hA]
      exact hf5
    · rw [hA]
      exact hf6
    · rw [hA]
      exact hf7
    · intro h
      have hlt : S5.idx1 < u32pred S5.inputs_count := by
        show s.idx1 < u32pred s.inputs_count
        rw [hi1, hupi]
        omega
      obtain ⟨hg1, hg2, hg3⟩ := hf9 hlt
      refine ⟨by rw [hA]; exact hg1, ?_, by rw [hA]; exact hg3⟩
      rw [hA, hg2]
      show s.idx1 + 1 = t + 1
      rw [hi1]
    · intro h
      have hnlt : ¬S5.idx1 < u32pred S5.inputs_count := by
        show ¬s.idx1 < u32pred s.inputs_count
        rw [hi1, hupi]
        omega
      rw [hA]
      exact hf10 hnlt
  · intro hne
    have htcm : ¬S5.tc ++ [Chunk.outb (env.compile_output wl false).2] =
        S5.hash_check := by
      rw [htcEq]
      exact hne
    have hchg := stage4out_last_changed env S5 wl hs rfl hposl hble hb2w
      hcL htcm
    constructor
    · rw [hA, hchg]
    · refine ⟨(run env s (ins2.map ackIn)).2 ++
        (run env S4 (w.map ackOut)).2, ?_⟩
      rw [hA, hchg]
      simp [List.append_assoc]

/-- The whole of Phase 1, from `signing_init` to the Phase-2 entry: the
input loop (each input with its verified previous transaction), the
output walk, and the finale with both confirmations accepted. The
resulting state is active at STAGE_REQUEST_4_INPUT with both walk indices
0 and `hash_check` holding the full Phase-1 checksum stream. -/
theorem run_phase1_full (env : Env) (ps : List (TxInputType × PrevTx))
    (front : List TxOutputType) (lasto : TxOutputType)
    (ch : TxOutputType → Bool) (f : Bool × Bool × List Nat)
    (coin : CoinType) (root : HDNode) (s0 : SState)
    (hpne : ps ≠ [])
    (hic : ps.length < U32)
    (hoc : front.length + 1 < U32)
    (hmem : ∀ q ∈ ps, q.2.pins ≠ [] ∧ q.2.pouts ≠ [] ∧
      q.2.pins.length < U32 ∧ q.2.pouts.length < U32 ∧
      env.tx_hash (prevStruct q.2) = q.1.prev_hash)
    (hff : fpFold env (false, false, s0.multisig_fp) (ps.map Prod.fst) =
      some f)
    (hcl : ∀ o ∈ front, classifyOutput env f.1 f.2.1 f.2.2 o =
      ClassRes.ok (ch o))
    (hcll : classifyOutput env f.1 f.2.1 f.2.2 lasto =
      ClassRes.ok (ch lasto))
    (hpos1 : ∀ o ∈ front, 0 < (env.compile_output o (!ch o)).1)
    (hposl : 0 < (env.compile_output lasto (!(ch lasto))).1)
    (hcg : changeOk ch 0 front = true)
    (hchl : ch lasto = true → changeFold ch 0 front = 0)
    (hfund : ¬spendFold 0 ps <
      u64add (spendOutsFold 0 front) lasto.amount)
    (hcf : ∀ x, env.confirm_fee x = true)
    (hct : ∀ x y, env.confirm_transaction x y = true) :
    ∃ S : SState,
      (run env (signing_init ps.length (front.length + 1) coin root s0).1
        ((ps.flatMap fun q => inputAcks q.1 q.2) ++
          (front.map ackOut ++ [ackOut lasto]))).1 = S ∧
      S.signing = true ∧ S.stage = Stage.r4Input ∧
      S.idx1 = 0 ∧ S.idx2 = 0 ∧
      S.inputs_count = ps.length ∧
      S.outputs_count = front.length + 1 ∧
      S.coin = coin ∧ S.root = root ∧
      S.hash_check = checksumChunks ps.length (front.length + 1)
        (ps.map Prod.fst) (binsOf1 env ch (front ++ [lasto])) ∧
      countFailures (run env
        (signing_init ps.length (front.length + 1) coin root s0).1
        ((ps.flatMap fun q => inputAcks q.1 q.2) ++
          (front.map ackOut ++ [ackOut lasto]))).2 = 0 := by
  set S0 : SState :=
    (signing_init ps.length (front.length + 1) coin root s0).1 with hS0
  have hup2 : u32pred (front.length + 1) = front.length := u32pred_succ hoc
  obtain ⟨⟨inp2, tp2, idx2b, hrunI⟩, hcntI⟩ :=
    run_phase1_ins env ps S0 f rfl rfl
      (by show 0 + ps.length = ps.length; omega)
      hic hpne hmem hff
  set S1 : SState :=
    { S0 with tc := S0.tc ++ ps.map (fun q => Chunk.inp q.1),
              to_spend := spendFold S0.to_spend ps,
              idx1 := 0, stage := Stage.r3Output,
              multisig_fp_set := f.1, multisig_fp_mismatch := f.2.1,
              multisig_fp := f.2.2,
              input := inp2, tp := tp2, idx2 := idx2b } with hS1
  obtain ⟨hrunO, hcntO⟩ := run_phase1_outs env front ch S1 rfl rfl
    (by
      show 0 + front.length ≤ u32pred (front.length + 1)
      rw [hup2]
      omega)
    hcl hpos1 hcg
  set S2 : SState :=
    { S1 with change_spend := changeFold ch S1.change_spend front,
              spending := spendOutsFold S1.spending front,
              tc := S1.tc ++ (binsOf1 env ch front).map Chunk.outb,
              idx1 := S1.idx1 + front.length } with hS2
  have hlast2 : ¬S2.idx1 < u32pred S2.outputs_count := by
    show ¬0 + front.length < u32pred (front.length + 1)
    rw [hup2]
    omega
  have hstep : ∃ evl, signing_txack env S2 (ackOut lasto) =
      ({ finaleState env S2 lasto (ch lasto) with
         idx1 := 0, idx2 := 0, stage := Stage.r4Input }, evl) ∧
      countFailures evl = 0 := by
    rw [stage3_dispatch env S2 lasto (ch lasto) rfl rfl hcll,
      stage3cont_last env S2 lasto (ch lasto) rfl hchl hposl hlast2,
      if_neg (show ¬S2.to_spend < u64add S2.spending lasto.amount
        from hfund)]
    by_cases hth : overThreshold S2 lasto
    · rw [if_pos hth, if_pos (hcf _), if_pos (hct _ _)]
      exact ⟨_, rfl, by rfl⟩
    · rw [if_neg hth, if_pos (hct _ _)]
      exact ⟨_, rfl, by rfl⟩
  obtain ⟨evl, hel, hevl⟩ := hstep
  have hA := run_append env (ps.flatMap fun q => inputAcks q.1 q.2)
    (front.map ackOut ++ [ackOut lasto]) S0
  rw [hrunI] at hA
  have hB := run_append env (front.map ackOut) [ackOut lasto] S1
  rw [hrunO] at hB
  have hC : run env S2 [ackOut lasto] =
      ((signing_txack env S2 (ackOut lasto)).1,
        (signing_txack env S2 (ackOut lasto)).2 ++ []) := by
    rw [run_cons, run_nil]
  rw [hel] at hC
  rw [hB, hC] at hA
  refine ⟨{ finaleState env S2 lasto (ch lasto) with
    idx1 := 0, idx2 := 0, stage := Stage.r4Input }, ?_, rfl, rfl, rfl,
    rfl, rfl, rfl, rfl, rfl, ?_, ?_⟩
  · rw [hA]
  · show S2.tc ++ [Chunk.outb (env.compile_output lasto (!(ch lasto))).2]
      = _
    show ((seedChunks ps.length (front.length + 1) ++
        ps.map (fun q => Chunk.inp q.1)) ++
        (binsOf1 env ch front).map Chunk.outb) ++
        [Chunk.outb (env.compile_output lasto (!(ch lasto))).2] = _
    simp [checksumChunks, binsOf1, List.append_assoc]
  · rw [hA]
    simp only [countFailures_append, hcntI, hcntO, hevl]
    rfl

/-- `k` back-to-back repetitions of the same TxAck sequence (the host
re-delivers the same transaction on every Phase-2 walk). -/
def repAcks : Nat → List TransactionType → List TransactionType
  | 0, _ => []
  | k + 1, a => a ++ repAcks k a

/-- Running `k` honest Phase-2 walks (each re-delivering input records
and outputs whose compiled stream matches `hash_check`) from the entry of
walk `t` reaches the entry of walk `t + k` with the declared shape, coin,
root and `hash_check` intact and no failure. -/
theorem run_honest_walks (env : Env) (insH : List TxInputType)
    (wH : List TxOutputType) (wlH : TxOutputType)
    (hmsi : ∀ ms pk, 0 ≤ env.pubkey_index ms pk)
    (hmss : ∀ ms, ¬(env.serialize_script_multisig ms).length = 0) :
    ∀ (k t : Nat) (s : SState), s.signing = true →
      s.stage = Stage.r4Input → s.idx2 = 0 → s.idx1 = t →
      t + k < s.inputs_count →
      insH.length = s.inputs_count →
      s.inputs_count < U32 →
      wH.length + 1 = s.outputs_count →
      s.outputs_count < U32 →
      (∀ j, j < s.inputs_count → ∃ ndj ssj,
        targetScript env s.coin s.root (insH.getD j zeroInput) =
          some (ndj, ssj)) →
      (∀ o ∈ wH ++ [wlH], 0 < (env.compile_output o false).1) →
      checksumChunks s.inputs_count s.outputs_count insH
        (binsOf2 env (wH ++ [wlH])) = s.hash_check →
      ∃ S2 : SState,
        (run env s (repAcks k (walkAcks insH (wH ++ [wlH])))).1 = S2 ∧
        S2.signing = true ∧ S2.stage = Stage.r4Input ∧
        S2.idx2 = 0 ∧ S2.idx1 = t + k ∧
        S2.inputs_count = s.inputs_count ∧
        S2.outputs_count = s.outputs_count ∧
        S2.coin = s.coin ∧ S2.root = s.root ∧
        S2.hash_check = s.hash_check ∧
        countFailures (run env s
          (repAcks k (walkAcks insH (wH ++ [wlH])))).2 = 0 := by
  intro k
  induction k with
  | zero =>
    intro t s hs hst hk0 hi1 _ _ _ _ _ _ _ _
    refine ⟨s, ?_, hs, hst, hk0, by omega, rfl, rfl, rfl, rfl, rfl, ?_⟩
    · rw [show repAcks 0 (walkAcks insH (wH ++ [wlH])) = [] from rfl,
        run_nil]
    · rw [show repAcks 0 (walkAcks insH (wH ++ [wlH])) = [] from rfl,
        run_nil]
      rfl
  | succ k ih =>
    intro t s hs hst hk0 hi1 hsum hleni hic hleno hocU htgts hpos hEq
    obtain ⟨nd, ss, htgt⟩ := htgts t (by omega)
    obtain ⟨hok, -⟩ := run_p2_walk_at env insH wH wlH nd ss t s hs hst
      hk0 hi1 (by omega) hleni hic hleno hocU htgt hmsi hmss hpos
    obtain ⟨htc2, hsg2, hcnt2, -, hhc2, hic2, hoc2, hcoin2, hroot2,
      hbr2, -⟩ := hok hEq
    obtain ⟨hst3, hidx3, hidx23⟩ := hbr2 (by omega)
    set T : SState := (run env s (walkAcks insH (wH ++ [wlH]))).1 with hT
    obtain ⟨S2, hS2eq, f1, f2, f3, f4, f5, f6, f7, f8, f9, f10⟩ :=
      ih (t + 1) T hsg2 hst3 hidx23 hidx3
        (by rw [hic2]; omega)
        (by rw [hic2]; exact hleni)
        (by rw [hic2]; exact hic)
        (by rw [hoc2]; exact hleno)
        (by rw [hoc2]; exact hocU)
        (fun j hj => by
          rw [hcoin2, hroot2]
          exact htgts j (by rw [hic2] at hj; exact hj))
        hpos
        (by rw [hic2, hoc2, hhc2]; exact hEq)
    have hsplit := run_append env (walkAcks insH (wH ++ [wlH]))
      (repAcks k (walkAcks insH (wH ++ [wlH]))) s
    refine ⟨S2, ?_, f1, f2, f3, by omega,
      by rw [f5]; exact hic2, by rw [f6]; exact hoc2,
      by rw [f7]; exact hcoin2, by rw [f8]; exact hroot2,
      by rw [f9]; exact hhc2, ?_⟩
    · rw [show repAcks (k + 1) (walkAcks insH (wH ++ [wlH])) =
        walkAcks insH (wH ++ [wlH]) ++
          repAcks k (walkAcks insH (wH ++ [wlH])) from rfl, hsplit]
      show (run env T (repAcks k (walkAcks insH (wH ++ [wlH])))).1 = S2
      exact hS2eq
    · rw [show repAcks (k + 1) (walkAcks insH (wH ++ [wlH])) =
        walkAcks insH (wH ++ [wlH]) ++
          repAcks k (walkAcks insH (wH ++ [wlH])) from rfl, hsplit]
      show countFailures ((run env s (walkAcks insH (wH ++ [wlH]))).2 ++
        (run env T (repAcks k (walkAcks insH (wH ++ [wlH])))).2) = 0
      simp only [countFailures_append, hcnt2, f10]

/-! ### Claim C1 (two-pass checksum consistency) -/

/-- C1: in every signing session (arbitrary inputs with verified previous
transactions, outputs passing the classifier, funds sufficient, prompts
accepted, key derivation and script compilation succeeding), Phase 1
deposits the full checksum stream into `hash_check`, and at every Phase-2
walk `t` (after `t` honest walks, which themselves emit no failure): a
walk re-delivering byte-identical input records and outputs compiling to
byte-identical binary outputs finalises its rebuilt checksum to exactly
`hash_check` and proceeds — no failure, session active, a signature
request emitted; a walk whose records differ anywhere (same counts)
fails with Other/"Transaction has changed during signing" and
deactivates the session. -/
theorem c1_two_pass_consistency (env : Env)
    (ps : List (TxInputType × PrevTx)) (front : List TxOutputType)
    (lasto : TxOutputType) (ch : TxOutputType → Bool)
    (f : Bool × Bool × List Nat) (coin : CoinType) (root : HDNode)
    (s0 : SState) (wH : List TxOutputType) (wlH : TxOutputType)
    (t : Nat) (ins2 : List TxInputType) (w : List TxOutputType)
    (wl : TxOutputType) (nd : HDNode) (ss : List Nat)
    (S T : SState)
    (hS : S = (run env
      (signing_init ps.length (front.length + 1) coin root s0).1
      ((ps.flatMap fun q => inputAcks q.1 q.2) ++
        (front.map ackOut ++ [ackOut lasto]))).1)
    (hT : T = (run env S (repAcks t (walkAcks (ps.map Prod.fst)
      (wH ++ [wlH])))).1)
    (hpne : ps ≠ [])
    (hic : ps.length < U32)
    (hoc : front.length + 1 < U32)
    (hmem : ∀ q ∈ ps, q.2.pins ≠ [] ∧ q.2.pouts ≠ [] ∧
      q.2.pins.length < U32 ∧ q.2.pouts.length < U32 ∧
      env.tx_hash (prevStruct q.2) = q.1.prev_hash)
    (hff : fpFold env (false, false, s0.multisig_fp) (ps.map Prod.fst) =
      some f)
    (hcl : ∀ o ∈ front, classifyOutput env f.1 f.2.1 f.2.2 o =
      ClassRes.ok (ch o))
    (hcll : classifyOutput env f.1 f.2.1 f.2.2 lasto =
      ClassRes.ok (ch lasto))
    (hpos1 : ∀ o ∈ front, 0 < (env.compile_output o (!ch o)).1)
    (hposl : 0 < (env.compile_output lasto (!(ch lasto))).1)
    (hcg : changeOk ch 0 front = true)
    (hchl : ch lasto = true → changeFold ch 0 front = 0)
    (hfund : ¬spendFold 0 ps <
      u64add (spendOutsFold 0 front) lasto.amount)
    (hcf : ∀ x, env.confirm_fee x = true)
    (hct : ∀ x y, env.confirm_transaction x y = true)
    (hmsi : ∀ ms pk, 0 ≤ env.pubkey_index ms pk)
    (hmss : ∀ ms, ¬(env.serialize_script_multisig ms).length = 0)
    (htgts : ∀ j, j < ps.length → ∃ ndj ssj,
      targetScript env coin root ((ps.map Prod.fst).getD j zeroInput) =
        some (ndj, ssj))
    (hwhl : wH.length = front.length)
    (hposH : ∀ o ∈ wH ++ [wlH], 0 < (env.compile_output o false).1)
    (hbinsH : binsOf2 env (wH ++ [wlH]) =
      binsOf1 env ch (front ++ [lasto]))
    (htlt : t < ps.length)
    (hleni : ins2.length = ps.length)
    (hleno : w.length = front.length)
    (htgt : targetScript env coin root (ins2.getD t zeroInput) =
      some (nd, ss))
    (hpos2 : ∀ o ∈ w ++ [wl], 0 < (env.compile_output o false).1) :
    S.hash_check = checksumChunks ps.length (front.length + 1)
      (ps.map Prod.fst) (binsOf1 env ch (front ++ [lasto])) ∧
    countFailures (run env S (repAcks t (walkAcks (ps.map Prod.fst)
      (wH ++ [wlH])))).2 = 0 ∧
    (ins2 = ps.map Prod.fst ∧
        binsOf2 env (w ++ [wl]) = binsOf1 env ch (front ++ [lasto]) →
      (run env T (walkAcks ins2 (w ++ [wl]))).1.tc = S.hash_check ∧
      (run env T (walkAcks ins2 (w ++ [wl]))).1.signing = true ∧
      countFailures (run env T (walkAcks ins2 (w ++ [wl]))).2 = 0 ∧
      ∃ e ∈ (run env T (walkAcks ins2 (w ++ [wl]))).2,
        Event.hasSignature e = true) ∧
    (¬(ins2 = ps.map Prod.fst ∧
        binsOf2 env (w ++ [wl]) = binsOf1 env ch (front ++ [lasto])) →
      (run env T (walkAcks ins2 (w ++ [wl]))).1.signing = false ∧
      ∃ pre, (run env T (walkAcks ins2 (w ++ [wl]))).2 =
        pre ++ [Event.failure FailureType.Other
          "Transaction has changed during signing", Event.goHome]) := by
  subst hT
  subst hS
  obtain ⟨S2, hSeq, hsg, hstg, hidx1, hidx2, hicnt, hocnt, hcoin, hroot,
    hhc, -⟩ := run_phase1_full env ps front lasto ch f coin root s0
      hpne hic hoc hmem hff hcl hcll hpos1 hposl hcg hchl hfund hcf hct
  rw [hSeq]
  obtain ⟨S3, hS3eq, g1, g2, g3, g4, g5, g6, g7, g8, g9, g10⟩ :=
    run_honest_walks env (ps.map Prod.fst) wH wlH hmsi hmss t 0 S2
      hsg hstg hidx2 hidx1
      (by rw [hicnt]; omega)
      (by rw [hicnt]; simp)
      (by rw [hicnt]; exact hic)
      (by rw [hocnt, hwhl])
      (by rw [hocnt]; exact hoc)
      (fun j hj => by
        rw [hcoin, hroot]
        exact htgts j (by rw [hicnt] at hj; exact hj))
      hposH
      (by rw [hicnt, hocnt, hhc, hbinsH])
  rw [hS3eq]
  obtain ⟨hok, hbad⟩ := run_p2_walk_at env ins2 w wl nd ss t S3
    g1 g2 g3 (by omega)
    (by rw [g5, hicnt]; exact htlt)
    (by rw [g5, hicnt]; exact hleni)
    (by rw [g5, hicnt]; exact hic)
    (by rw [g6, hocnt, hleno])
    (by rw [g6, hocnt]; exact hoc)
    (by rw [g7, hcoin, g8, hroot]; exact htgt)
    hmsi hmss hpos2
  refine ⟨hhc, g10, ?_, ?_⟩
  · intro hsame
    obtain ⟨htcR, hsgR, hcntR, hexR, -⟩ := hok (by
      rw [g5, hicnt, g6, hocnt, g9, hhc, hsame.1, hsame.2])
    exact ⟨htcR.trans g9, hsgR, hcntR, hexR⟩
  · intro hdiff
    apply hbad
    intro hEq
    apply hdiff
    rw [g5, hicnt, g6, hocnt, g9, hhc] at hEq
    exact (checksumChunks_inj ps.length (front.length + 1)
      (ps.map Prod.fst) ins2 (binsOf1 env ch (front ++ [lasto]))
      (binsOf2 env (w ++ [wl])) (by simp [hleni])).mp hEq

/-- Closed witness for C1: the concrete 1-input/1-output session, honest
host in both phases, has a failure-free Phase-2 walk. -/
theorem c1_two_pass_consistency_witness :
    countFailures (run env0
      (run env0 (signing_init 1 1 coin1 root1 s00).1
        (([(input1, p1)].flatMap fun q => inputAcks q.1 q.2) ++
          (List.map ackOut [] ++ [ackOut out90k]))).1
      (walkAcks [input1] ([] ++ [out90k]))).2 = 0 := by
  have h := c1_two_pass_consistency env0 [(input1, p1)] [] out90k
    (fun _ => false) (false, true, List.replicate 32 0) coin1 root1 s00
    [] out90k 0 [input1] [] out90k
    ⟨List.replicate 32 5, List.replicate 33 7⟩ [3]
    _ _ rfl rfl (List.cons_ne_nil _ _) (by decide) (by decide)
    (by decide) (by decide) (by decide) rfl (by decide) (by decide)
    rfl (by decide) (by decide) (fun _ => rfl) (fun _ _ => rfl)
    (fun _ _ => Int.le_refl 0)
    (fun _ => show ¬([7] : List Nat).length = 0 by decide)
    (fun j hj => ⟨⟨List.replicate 32 5, List.replicate 33 7⟩, [3], by
      have hj0 : j = 0 := Nat.lt_one_iff.mp hj
      subst hj0
      rfl⟩)
    rfl (by decide) rfl (by decide) rfl rfl rfl (by decide)
  exact (h.2.2.1 ⟨rfl, rfl⟩).2.2.1

/-! ### Claim C7 (at most one change output) -/

/-- Counterexample for C7: in the concrete session `acksC7` both outputs
are classified as change by the explicit-CHANGE rule, yet — because the
first change output carries amount 0 and the code uses `change_spend == 0`
as its "no change yet" sentinel — the second change output is accepted:
no "Only one change output allowed" failure occurs and the session
proceeds to Phase 2. -/
theorem c7_counterexample :
    classifyOutput env0 false true (List.replicate 32 0) changeOut0 =
      ClassRes.ok true ∧
    classifyOutput env0 false true (List.replicate 32 0) changeOut39k =
      ClassRes.ok true ∧
    countFail runC7.2 FailureType.Other "Only one change output allowed" = 0 ∧
    countFailures runC7.2 = 0 ∧
    runC7.1.stage = Stage.r4Input ∧ runC7.1.signing = true := by decide

/-- C7 (amended): a Phase-1 output classified as change aborts the
session with Other/"Only one change output allowed" exactly when a
previous change output left a nonzero `change_spend`; when `change_spend`
is still 0 (no previous change, or only zero-amount ones) the output is
accepted and records its amount as `change_spend`. -/
theorem c7_change_output_slot (env : Env) (s : SState) (o : TxOutputType)
    (hs : s.signing = true) (hst : s.stage = Stage.r3Output)
    (hcl : classifyOutput env s.multisig_fp_set s.multisig_fp_mismatch
      s.multisig_fp o = ClassRes.ok true) :
    (s.change_spend ≠ 0 →
      signing_txack env s (ackOut o) =
        ({ s with signing := false },
          [Event.failure FailureType.Other "Only one change output allowed",
            Event.goHome])) ∧
    (s.change_spend = 0 →
      countFail (signing_txack env s (ackOut o)).2 FailureType.Other
        "Only one change output allowed" = 0 ∧
      (signing_txack env s (ackOut o)).1.change_spend = o.amount) := by
  rw [stage3_dispatch env s o true hs hst hcl]
  constructor
  · intro hcs
    simp [stage3cont, hcs, failAbort, signing_abort, hs]
  · intro hcs
    simp only [stage3cont, hcs, if_pos rfl, if_true]
    constructor
    · split_ifs <;>
        simp [countFail, isFailEv, failAbort, signing_abort, hs]
    · split_ifs <;>
        simp [failAbort, signing_abort, hs]

/-- Witness for C7 (amended): a second change output after a 39000-unit
change is rejected with the exact failure. -/
theorem c7_change_output_slot_witness :
    s7.change_spend ≠ 0 ∧
    (signing_txack env0 s7 (ackOut changeOut39k)).2 =
      [Event.failure FailureType.Other "Only one change output allowed",
        Event.goHome] := by
  refine ⟨by decide, ?_⟩
  rw [(c7_change_output_slot env0 s7 changeOut39k (by decide) (by decide)
    (by decide)).1 (by decide)]

/-! ### Claim C10 (invalid output address type) -/

/-- Counterexample for C10: `badMsOut` is not classified as change (its
multisig fingerprint differs from the session's), carries an explicit
address type failing `check_valid_output_address`, yet the session run
`runC10` accepts it without any failure: the validity check is skipped
for outputs that enter the multisig-change branch. -/
theorem c10_counterexample :
    badMsOut.has_address_type = true ∧
    check_valid_output_address badMsOut = false ∧
    runC10.1.multisig_fp_set = true ∧
    runC10.1.multisig_fp_mismatch = false ∧
    classifyOutput env0 true false [1] badMsOut = ClassRes.ok false ∧
    countFailures runC10.2 = 0 ∧
    runC10.1.signing = true ∧ runC10.1.stage = Stage.r3Output := by decide

/-- C10 (amended): in stage REQ_3_OUTPUT the classifier reports an
invalid address type exactly for outputs that do not enter the
multisig-change branch, carry an explicit `address_type`, and fail
`check_valid_output_address` (SPEND without an address, TRANSFER/CHANGE
with an empty path); for such an output the session aborts with
Other/"Invalid output address type". -/
theorem c10_invalid_output_address_type (env : Env) (s : SState)
    (o : TxOutputType)
    (hs : s.signing = true) (hst : s.stage = Stage.r3Output) :
    (classifyOutput env s.multisig_fp_set s.multisig_fp_mismatch
        s.multisig_fp o = ClassRes.invalidAddr ↔
      (¬(o.script_type = OutputScriptType.PAYTOMULTISIG ∧ o.has_multisig ∧
          s.multisig_fp_set ∧ ¬s.multisig_fp_mismatch) ∧
        o.has_address_type = true ∧
        check_valid_output_address o = false)) ∧
    (classifyOutput env s.multisig_fp_set s.multisig_fp_mismatch
        s.multisig_fp o = ClassRes.invalidAddr →
      signing_txack env s (ackOut o) =
        ({ s with signing := false },
          [Event.failure FailureType.Other "Invalid output address type",
            Event.goHome])) := by
  constructor
  · constructor
    · intro hcl
      unfold classifyOutput at hcl
      by_cases hbr : o.script_type = OutputScriptType.PAYTOMULTISIG ∧
          o.has_multisig ∧ s.multisig_fp_set ∧ ¬s.multisig_fp_mismatch
      · rw [if_pos hbr] at hcl
        cases henv : env.multisig_fingerprint o.multisig <;>
          simp [henv] at hcl
      · rw [if_neg hbr] at hcl
        by_cases hat : o.has_address_type = true
        · simp only [hat, if_true] at hcl
          by_cases hval : check_valid_output_address o = false
          · exact ⟨hbr, hat, hval⟩
          · simp [hval] at hcl
        · simp [hat] at hcl
    · rintro ⟨hbr, hat, hval⟩
      unfold classifyOutput
      rw [if_neg hbr]
      simp [hat, hval]
  · intro hcl
    simp [signing_txack, hs, hst, stage3, hcl, failAbort, signing_abort]

/-- Witness for C10 (amended): a SPEND-typed output without an address is
rejected with the exact failure. -/
theorem c10_invalid_output_address_type_witness :
    classifyOutput env0 s3fin.multisig_fp_set s3fin.multisig_fp_mismatch
      s3fin.multisig_fp badAddrOut = ClassRes.invalidAddr ∧
    (signing_txack env0 s3fin (ackOut badAddrOut)).2 =
      [Event.failure FailureType.Other "Invalid output address type",
        Event.goHome] := by
  refine ⟨by decide, ?_⟩
  rw [(c10_invalid_output_address_type env0 s3fin badAddrOut (by decide)
    (by decide)).2 (by decide)]

/-! ### Claim C4 (user cancellations) -/

/-- Counterexample for C4: rejecting the Phase-1 per-output confirmation
(the compile call with display enabled returns a negative result) makes
the session fail with kind Other — not ActionCancelled — carrying
"Signing cancelled by user". -/
theorem c4_counterexample :
    countFail runC4.2 FailureType.Other "Signing cancelled by user" = 1 ∧
    countFailKind runC4.2 FailureType.ActionCancelled = 0 ∧
    countFailures runC4.2 = 1 ∧
    runC4.1.signing = false := by decide

/-- C4 (amended): rejecting the fee prompt fails the session with
ActionCancelled/"Fee over threshold. Signing cancelled."; rejecting the
final confirmation fails it with ActionCancelled/"Signing cancelled by
user" and deactivates it; rejecting the Phase-1 per-output confirmation
fails it with Other/"Signing cancelled by user" and deactivates it. In
every case the failing step emits no signature. -/
theorem c4_user_cancellation (env : Env) (s : SState) (o : TxOutputType)
    (c : Bool)
    (hs : s.signing = true) (hst : s.stage = Stage.r3Output)
    (hcl : classifyOutput env s.multisig_fp_set s.multisig_fp_mismatch
      s.multisig_fp o = ClassRes.ok c)
    (hch : c = true → s.change_spend = 0) :
    ((env.compile_output o (!c)).1 < 0 →
      (signing_txack env s (ackOut o)).2 =
        [Event.failure FailureType.Other "Signing cancelled by user",
          Event.goHome] ∧
      (signing_txack env s (ackOut o)).1.signing = false ∧
      ((signing_txack env s (ackOut o)).2.filter Event.hasSignature).length
        = 0) ∧
    (0 < (env.compile_output o (!c)).1 →
      ¬s.idx1 < u32pred s.outputs_count →
      ¬s.to_spend < u64add s.spending o.amount →
      overThreshold s o →
      env.confirm_fee (finaleFee s o) = false →
      (signing_txack env s (ackOut o)).2 =
        [Event.feePrompt (finaleFee s o),
          Event.failure FailureType.ActionCancelled
            "Fee over threshold. Signing cancelled.",
          Event.goHome] ∧
      ((signing_txack env s (ackOut o)).2.filter Event.hasSignature).length
        = 0) ∧
    (0 < (env.compile_output o (!c)).1 →
      ¬s.idx1 < u32pred s.outputs_count →
      ¬s.to_spend < u64add s.spending o.amount →
      (overThreshold s o → env.confirm_fee (finaleFee s o) = true) →
      env.confirm_transaction (finaleTotal s o c) (finaleFee s o) = false →
      countFail (signing_txack env s (ackOut o)).2
        FailureType.ActionCancelled "Signing cancelled by user" = 1 ∧
      (signing_txack env s (ackOut o)).1.signing = false ∧
      ((signing_txack env s (ackOut o)).2.filter Event.hasSignature).length
        = 0) := by
  rw [stage3_dispatch env s o c hs hst hcl]
  refine ⟨?_, ?_, ?_⟩
  · intro hco
    cases c with
    | true =>
      simp only [Bool.not_true] at hco
      refine ⟨?_, ?_, ?_⟩ <;>
        simp [stage3cont, hch rfl, hco, failAbort, signing_abort, hs,
          Event.hasSignature]
    | false =>
      simp only [Bool.not_false] at hco
      refine ⟨?_, ?_, ?_⟩ <;>
        simp [stage3cont, hco, failAbort, signing_abort, hs,
          Event.hasSignature]
  · intro hco hlast hno hth hcf
    rw [stage3cont_last env s o c hs hch hco hlast, if_neg hno, if_pos hth,
      if_neg (by rw [hcf]; exact Bool.false_ne_true)]
    exact ⟨rfl, rfl⟩
  · intro hco hlast hno hthf hct
    rw [stage3cont_last env s o c hs hch hco hlast, if_neg hno]
    by_cases hth : overThreshold s o
    · rw [if_pos hth, if_pos (hthf hth),
        if_neg (by rw [hct]; exact Bool.false_ne_true)]
      refine ⟨?_, rfl, ?_⟩ <;>
        simp [countFail, isFailEv, Event.hasSignature]
    · rw [if_neg hth, if_neg (by rw [hct]; exact Bool.false_ne_true)]
      refine ⟨?_, rfl, ?_⟩ <;>
        simp [countFail, isFailEv, Event.hasSignature]

/-- Witness for C4 (amended): the three rejection sites exercised on
concrete sessions produce exactly the stated failures. -/
theorem c4_user_cancellation_witness :
    (signing_txack envRejectOutput s3fin (ackOut out90k)).2 =
      [Event.failure FailureType.Other "Signing cancelled by user",
        Event.goHome] ∧
    (signing_txack envRejectFee s3finB (ackOut out90k)).2 =
      [Event.feePrompt (finaleFee s3finB out90k),
        Event.failure FailureType.ActionCancelled
          "Fee over threshold. Signing cancelled.",
        Event.goHome] ∧
    countFail (signing_txack envRejectFinal s3fin (ackOut out90k)).2
      FailureType.ActionCancelled "Signing cancelled by user" = 1 := by
  refine ⟨?_, ?_, ?_⟩
  · exact ((c4_user_cancellation envRejectOutput s3fin out90k false
      (by decide) (by decide) (by decide) (by decide)).1 (by decide)).1
  · exact (((c4_user_cancellation envRejectFee s3finB out90k false
      (by decide) (by decide) (by decide) (by decide)).2.1 (by decide)
      (by decide) (by decide) (by decide) (by decide))).1
  · exact (((c4_user_cancellation envRejectFinal s3fin out90k false
      (by decide) (by decide) (by decide) (by decide)).2.2 (by decide)
      (by decide) (by decide) (by decide) (by decide))).1

/-! ### Claims C2, C3 and C8 (session exit and initialisation) -/

/-- C2 failing input: the complete, successful S1 session (TXFINISHED
emitted, no failures) ends with `privkey` still holding the derived
private key bytes — not zeros. The code never wipes `privkey` on any exit
path (`signing_abort` only clears `signing` and returns home). -/
theorem c2_privkey_left_after_exit :
    runS1.1.signing = false ∧
    (runS1.2.filter Event.isFinished).length = 1 ∧
    countFailures runS1.2 = 0 ∧
    runS1.1.privkey = List.replicate 32 5 ∧
    runS1.1.privkey ≠ List.replicate 32 0 := by decide

/-- C3 failing input: the insufficient-funds session `acksC3`. The
NotEnoughFunds path calls `go_home()` but not `signing_abort()`, so the
session stays active: a subsequent TxAck is not answered with
UnexpectedMessage/"Not in Signing mode" — it is processed again in the
output stage and produces a second NotEnoughFunds failure. -/
theorem c3_failure_not_terminal :
    countFail runC3.2 FailureType.NotEnoughFunds "Not enough funds" = 2 ∧
    countFail runC3.2 FailureType.UnexpectedMessage "Not in Signing mode"
      = 0 ∧
    runC3.1.signing = true ∧
    runC3.1.stage = Stage.r3Output := by decide

/-- Counterexample for C8: starting a new session while one is active
does not fail — `signing_init` reinitialises unconditionally and emits
the first TxRequest. -/
theorem c8_counterexample :
    (signing_init 1 1 coin1 root1 s00).1.signing = true ∧
    countFailures runC8.2 = 0 ∧
    runC8.2 = [Event.txRequest RequestType.TXINPUT (some 0) none none] ∧
    runC8.1.signing = true := by decide

/-- C8 (amended): `signing_init` initialises the session — zeroing
`to_spend`, `spending` and `change_spend`, seeding the checksum context
with the 4-tuple (inputs_count, outputs_count, version=1, lock_time=0),
marking the session active and emitting TxRequest(TXINPUT, index 0) —
from any prior state, active or not: it never fails. -/
theorem c8_signing_init_spec (ic oc : Nat) (c : CoinType) (r : HDNode)
    (s : SState) :
    (signing_init ic oc c r s).1.to_spend = 0 ∧
    (signing_init ic oc c r s).1.spending = 0 ∧
    (signing_init ic oc c r s).1.change_spend = 0 ∧
    (signing_init ic oc c r s).1.tc = seedChunks ic oc ∧
    (signing_init ic oc c r s).1.signing = true ∧
    (signing_init ic oc c r s).1.stage = Stage.r1Input ∧
    (signing_init ic oc c r s).1.inputs_count = ic ∧
    (signing_init ic oc c r s).1.outputs_count = oc ∧
    (signing_init ic oc c r s).2 =
      [Event.txRequest RequestType.TXINPUT (some 0) none none] :=
  ⟨rfl, rfl, rfl, rfl, rfl, rfl, rfl, rfl, rfl⟩

end KeepKey
